import Mathlib

/- Formal model of the Cable Generator Blender add-on
   (src/cable_generator.py, the repository's single source file).

   Geometry is modelled over exact rationals.  The host's vector type
   (mathutils.Vector) computes Euclidean lengths with a real square root;
   the square root of a rational is not rational in general, so every
   function that calls `.length` or `.normalized()` takes an extra
   argument `sq : Sqrt` standing for the host's square-root routine.
   Theorems that depend on metric facts assume `GoodSqrtAt sq q` (that
   `sq q` is the non-negative square root of `q`) at exactly the values
   where the source takes a square root. -/

namespace CableGen

/-- Three-component vector, mirroring mathutils.Vector of length 3. -/
structure Vec3 where
  x : ℚ
  y : ℚ
  z : ℚ
deriving DecidableEq, Repr

namespace Vec3

instance : Add Vec3 := ⟨fun a b => ⟨a.x + b.x, a.y + b.y, a.z + b.z⟩⟩

instance : Sub Vec3 := ⟨fun a b => ⟨a.x - b.x, a.y - b.y, a.z - b.z⟩⟩

instance : Neg Vec3 := ⟨fun a => ⟨-a.x, -a.y, -a.z⟩⟩

/-- Scalar multiplication; the source writes `v * c` with the scalar on
    the right, which is the same componentwise product. -/
instance : SMul ℚ Vec3 := ⟨fun c a => ⟨c * a.x, c * a.y, c * a.z⟩⟩

@[simp] theorem add_x (a b : Vec3) : (a + b).x = a.x + b.x := rfl

@[simp] theorem add_y (a b : Vec3) : (a + b).y = a.y + b.y := rfl

@[simp] theorem add_z (a b : Vec3) : (a + b).z = a.z + b.z := rfl

@[simp] theorem sub_x (a b : Vec3) : (a - b).x = a.x - b.x := rfl

@[simp] theorem sub_y (a b : Vec3) : (a - b).y = a.y - b.y := rfl

@[simp] theorem sub_z (a b : Vec3) : (a - b).z = a.z - b.z := rfl

@[simp] theorem neg_x (a : Vec3) : (-a).x = -a.x := rfl

@[simp] theorem neg_y (a : Vec3) : (-a).y = -a.y := rfl

@[simp] theorem neg_z (a : Vec3) : (-a).z = -a.z := rfl

@[simp] theorem smul_x (c : ℚ) (a : Vec3) : (c • a).x = c * a.x := rfl

@[simp] theorem smul_y (c : ℚ) (a : Vec3) : (c • a).y = c * a.y := rfl

@[simp] theorem smul_z (c : ℚ) (a : Vec3) : (c • a).z = c * a.z := rfl

theorem ext3 {a b : Vec3} (hx : a.x = b.x) (hy : a.y = b.y) (hz : a.z = b.z) :
    a = b := by
  cases a; cases b; simp_all

/-- Dot product (mathutils Vector.dot). -/
def dot (a b : Vec3) : ℚ := a.x * b.x + a.y * b.y + a.z * b.z

/-- Cross product (mathutils Vector.cross). -/
def cross (a b : Vec3) : Vec3 :=
  ⟨a.y * b.z - a.z * b.y, a.z * b.x - a.x * b.z, a.x * b.y - a.y * b.x⟩

/-- Squared Euclidean length of a vector. -/
def lenSq (v : Vec3) : ℚ := v.x * v.x + v.y * v.y + v.z * v.z

@[simp] theorem one_smul_vec (a : Vec3) : (1 : ℚ) • a = a := by
  apply ext3 <;> simp

end Vec3

open Vec3

/-- Abstract square-root routine standing in for the host's float sqrt. -/
abbrev Sqrt := ℚ → ℚ

/-- The routine `sq` returns the true non-negative square root at `q`. -/
def GoodSqrtAt (sq : Sqrt) (q : ℚ) : Prop := 0 ≤ sq q ∧ sq q * sq q = q

/-- Euclidean length of a vector (mathutils Vector.length), computed
    through the square-root routine. -/
def length (sq : Sqrt) (v : Vec3) : ℚ := sq (lenSq v)

/-- mathutils Vector.normalized: the vector scaled to unit length, or the
    zero vector when the length is zero. -/
def normalized (sq : Sqrt) (v : Vec3) : Vec3 :=
  if length sq v = 0 then ⟨0, 0, 0⟩ else (1 / length sq v) • v

/-- A 3x3 matrix recorded by its three columns.  The source builds
    `Matrix((x_axis, y_axis, z_axis)).transposed()`, whose columns are
    x_axis, y_axis, z_axis; we store those columns directly. -/
structure Mat3 where
  colx : Vec3
  coly : Vec3
  colz : Vec3
deriving DecidableEq, Repr

/-- Rotation-matrix construction shared (verbatim, three times) by
    create_end_cap and update_end_cap_orientations: local Z is sent to
    `z_axis`, with X and Y axes chosen from a world-X (or world-Y)
    reference. -/
def alignZ (sq : Sqrt) (z_axis : Vec3) : Mat3 :=
  let x_axis : Vec3 := ⟨1, 0, 0⟩
  let x_axis := if 0.9 < |Vec3.dot z_axis x_axis| then (⟨0, 1, 0⟩ : Vec3) else x_axis
  let y_axis := normalized sq (Vec3.cross z_axis x_axis)
  let x_axis := normalized sq (Vec3.cross y_axis z_axis)
  ⟨x_axis, y_axis, z_axis⟩

/-- Custom property values: Blender ID properties hold numbers or
    (length-3) arrays here. -/
inductive PVal where
  | num (q : ℚ)
  | vec (v : Vec3)
deriving DecidableEq, Repr

/-- Lookup in an insertion-ordered key/value property list (the custom
    property dictionary of a Blender ID). -/
def lookupProp : List (String × PVal) → String → Option PVal
  | [], _ => none
  | (k', v) :: rest, k => if k' = k then some v else lookupProp rest k

/-- Setting a key in the property dictionary: overwrite in place if the
    key exists, append otherwise (Python dict semantics). -/
def setProp : List (String × PVal) → String → PVal → List (String × PVal)
  | [], k, v => [(k, v)]
  | (k', v') :: rest, k, v =>
    if k' = k then (k, v) :: rest else (k', v') :: setProp rest k v

/-- Bezier control point: coordinate and the two handles. -/
structure BezPoint where
  co : Vec3
  handle_left : Vec3
  handle_right : Vec3
deriving DecidableEq, Repr

/-- Bezier spline: its list of control points. -/
structure Spline where
  bezier_points : List BezPoint
deriving DecidableEq, Repr

/-- Child object parented to a cable (end caps, in the parts the claims
    touch).  `rotation` is the rotation component of its world matrix;
    `is_end_cap` mirrors the truthiness of the custom property of the
    same name. -/
structure Child where
  name : List Char
  locationV : Vec3
  scaleV : Vec3
  rotation : Mat3
  is_end_cap : Bool
deriving DecidableEq, Repr

inductive ObjKind where
  | curve
  | mesh
  | other
deriving DecidableEq, Repr

inductive ObjMode where
  | EDIT
  | OBJECT
deriving DecidableEq, Repr

inductive ModType where
  | ARRAY
  | CURVE
  | OTHER
deriving DecidableEq, Repr

inductive FitType where
  | FIT_CURVE
  | FIXED_COUNT
deriving DecidableEq, Repr

/-- Host modifier, with the fields the handler touches. -/
structure Modifier where
  mtype : ModType
  fit_type : FitType
  count : ℤ
deriving DecidableEq, Repr

/-- A mesh face as the add-on consumes it: selection flag plus the
    world-space center and normal the host computes for it
    (get_face_center_and_normal is a host-geometry call; we record its
    result directly on the face). -/
structure Face where
  select : Bool
  center : Vec3
  normal : Vec3
deriving DecidableEq, Repr

/-- Scene object.  One structure covers curves and meshes; fields not
    meaningful for a kind keep their construction-time values. -/
structure Obj where
  name : String
  otype : ObjKind
  mode : ObjMode
  props : List (String × PVal)
  splines : List Spline
  resolution_u : ℤ
  bevel_depth : ℚ
  bevel_driver : Bool
  locationV : Vec3
  scaleV : Vec3
  children : List Child
  modifiers : List Modifier
  faces : List Face
deriving DecidableEq, Repr

/-- Read a custom property of an object. -/
def getProp (o : Obj) (k : String) : Option PVal := lookupProp o.props k

/-- Key-membership test, `k in obj.keys()` / `k in obj`. -/
def hasKey (o : Obj) (k : String) : Bool := (getProp o k).isSome

/-- Read a numeric custom property; `none` when absent or non-numeric. -/
def getNum (o : Obj) (k : String) : Option ℚ :=
  match getProp o k with
  | some (.num q) => some q
  | _ => none

/-- Read a vector custom property; `none` when absent or non-vector.
    (At a present key of the wrong shape the Python source would raise;
    callers below fall back to returning the object unchanged there, and
    every theorem assumes well-typed keys.) -/
def getVec (o : Obj) (k : String) : Option Vec3 :=
  match getProp o k with
  | some (.vec v) => some v
  | _ => none

/-- Python `obj.get(k, d)` for numeric properties. -/
def getNumD (o : Obj) (k : String) (d : ℚ) : ℚ :=
  match getProp o k with
  | some (.num q) => q
  | _ => d

/-- Python truthiness of `obj.get(k, 0)`: a number is truthy iff nonzero,
    a (length-3) array is truthy, a missing key gives falsy 0. -/
def truthyProp (o : Obj) (k : String) : Bool :=
  match getProp o k with
  | some (.num q) => q ≠ 0
  | some (.vec _) => true
  | none => false

/-- Python `int()` on a rational value: truncation toward zero. -/
def pyInt (q : ℚ) : ℤ := if 0 ≤ q then ⌊q⌋ else ⌈q⌉

/-- Characters of the name marker "Cap_Start". -/
def capStartChars : List Char := ['C', 'a', 'p', '_', 'S', 't', 'a', 'r', 't']

/-- Characters of the name marker "Cap_End". -/
def capEndChars : List Char := ['C', 'a', 'p', '_', 'E', 'n', 'd']

/-- Characters of the temporary marker "Cap_End_temp" used while
    swapping cap names in CABLEGEN_OT_ReverseCable. -/
def capEndTempChars : List Char :=
  ['C', 'a', 'p', '_', 'E', 'n', 'd', '_', 't', 'e', 'm', 'p']

/-- Python str.replace: replace every (leftmost-first, non-overlapping)
    occurrence of `p` by `r`.  The add-on only calls it with non-empty
    patterns. -/
def replaceAll (p r : List Char) : List Char → List Char
  | [] => []
  | c :: rest =>
    if h : p ≠ [] ∧ p.isPrefixOf (c :: rest) then
      r ++ replaceAll p r (List.drop p.length (c :: rest))
    else c :: replaceAll p r rest
termination_by n => n.length
decreasing_by
  · have hp : 0 < p.length := List.length_pos.mpr h.1
    simp only [List.length_drop, List.length_cons]
    omega
  · simp only [List.length_cons]
    omega

/-- Body of the per-child loop of update_end_cap_orientations: caps named
    "Cap_Start…" get the rotation aligned to the start tangent, caps named
    "Cap_End…" to the end tangent; location and scale are read back and
    re-applied, so only the rotation component changes. -/
def orientChild (sq : Sqrt) (spline : Spline) (child : Child) : Child :=
  if capStartChars.isPrefixOf child.name then
    match spline.bezier_points with
    | start_point :: _ =>
      let tangent := normalized sq (start_point.handle_right - start_point.co)
      { child with rotation := alignZ sq tangent }
    | [] => child
  else if capEndChars.isPrefixOf child.name then
    match spline.bezier_points with
    | _ :: end_point :: _ =>
      let tangent := normalized sq (end_point.co - end_point.handle_left)
      { child with rotation := alignZ sq tangent }
    | _ => child
  else child

/-- update_end_cap_orientations (src/cable_generator.py:181). -/
def update_end_cap_orientations (sq : Sqrt) (curve_obj : Obj) : Obj :=
  match curve_obj.splines with
  | [] => curve_obj
  | spline :: _ =>
    if spline.bezier_points.length < 2 then curve_obj
    else { curve_obj with children := curve_obj.children.map (orientChild sq spline) }

/-- The normalize-then-default pattern the source repeats in
    update_cable_handles and create_curve_between_points: normalize, then
    fall back to (0, 0, 1) when the result is degenerate. -/
def fixNormal (sq : Sqrt) (v : Vec3) : Vec3 :=
  let n := normalized sq v
  if length sq n < 0.001 then ⟨0, 0, 1⟩ else n

/-- update_cable_handles (src/cable_generator.py:235).  The source guards
    on key presence and point count and then indexes bezier_points[0] and
    [1]; setting those two indices of `p0 :: p1 :: tl` is written as the
    cons-rebuild below.  A present key of the wrong shape would raise in
    Python; those branches return the object unchanged and are excluded by
    the theorems' typing hypotheses. -/
def update_cable_handles (sq : Sqrt) (curve_obj : Obj) : Obj :=
  match getVec curve_obj "start_pos", curve_obj.splines with
  | some start_pos, spline :: rest =>
    match spline.bezier_points with
    | p0 :: p1 :: tl =>
      match getVec curve_obj "end_pos", getVec curve_obj "start_normal",
          getVec curve_obj "end_normal" with
      | some end_pos, some sn0, some en0 =>
        let start_normal := fixNormal sq sn0
        let end_normal := fixNormal sq en0
        let distance := length sq (end_pos - start_pos)
        let handle_length := distance * 0.4
        let sag := getNumD curve_obj "cable_sag" 0
        let direction := normalized sq (end_pos - start_pos)
        let start_alignment := Vec3.dot start_normal direction
        let end_alignment := Vec3.dot end_normal (-direction)
        let start_handle_dir := if start_alignment < -0.3 then -start_normal else start_normal
        let end_handle_dir := if end_alignment < -0.3 then -end_normal else end_normal
        let sag_vector := (distance * sag) • (⟨0, 0, -1⟩ : Vec3)
        let p0' := { p0 with
          handle_left := start_pos - (handle_length * 0.3) • start_handle_dir,
          handle_right := start_pos + handle_length • start_handle_dir
            + (0.5 : ℚ) • sag_vector }
        let p1' := { p1 with
          handle_left := end_pos + handle_length • end_handle_dir
            + (0.5 : ℚ) • sag_vector,
          handle_right := end_pos - (handle_length * 0.3) • end_handle_dir }
        update_end_cap_orientations sq
          { curve_obj with splines := { spline with bezier_points := p0' :: p1' :: tl } :: rest }
      | _, _, _ => curve_obj
    | _ => curve_obj
  | _, _ => curve_obj

inductive CapType where
  | CYLINDER
  | SPHERE
  | CUSTOM
deriving DecidableEq, Repr

/-- Final placement of a cap object produced by create_end_cap: located
    at `position`, rotated so local Z follows the (normalized) normal,
    uniformly scaled, and tagged is_end_cap.  The mesh payload and smooth
    shading are host geometry and carry no data the claims mention. -/
def capObject (sq : Sqrt) (position normal : Vec3) (scale : ℚ) (nm : List Char) : Child :=
  { name := nm
    locationV := position
    scaleV := ⟨scale, scale, scale⟩
    rotation := alignZ sq (normalized sq normal)
    is_end_cap := true }

/-- create_end_cap (src/cable_generator.py:104): returns None exactly for
    cap type CUSTOM with no custom mesh chosen (the trailing else). -/
def create_end_cap (sq : Sqrt) (position normal : Vec3) (cap_type : CapType)
    (custom_mesh : Bool) (scale : ℚ) (nm : List Char) : Option Child :=
  match cap_type with
  | .CUSTOM =>
    if custom_mesh then some (capObject sq position normal scale nm) else none
  | .CYLINDER => some (capObject sq position normal scale nm)
  | .SPHERE => some (capObject sq position normal scale nm)

/-- setup_cable_drivers (src/cable_generator.py:365): installs the driver
    that mirrors the cable_thickness property into bevel_depth; recorded
    as a flag. -/
def setup_cable_drivers (curve_obj : Obj) : Obj :=
  { curve_obj with bevel_driver := true }

/-- create_curve_between_points (src/cable_generator.py:292).  A fresh
    two-point bezier curve object: new bezier points start with zero
    handles, resolution_u keeps the host default 12, and the custom
    properties are written in source order, then the handles are set up
    and the thickness driver installed. -/
def create_curve_between_points (sq : Sqrt) (start_pos start_normal end_pos end_normal : Vec3)
    (nm : String) : Obj :=
  let start_normal := fixNormal sq start_normal
  let end_normal := fixNormal sq end_normal
  let curve_obj : Obj :=
    { name := nm
      otype := .curve
      mode := .OBJECT
      props :=
        [("is_cable", .num 1),
         ("cable_thickness", .num 0.05),
         ("cable_resolution", .num 12),
         ("cable_sag", .num 0),
         ("start_pos", .vec start_pos),
         ("end_pos", .vec end_pos),
         ("start_normal", .vec start_normal),
         ("end_normal", .vec end_normal),
         ("has_end_caps", .num 0),
         ("end_cap_scale", .num 1)]
      splines :=
        [{ bezier_points :=
            [{ co := start_pos, handle_left := ⟨0, 0, 0⟩, handle_right := ⟨0, 0, 0⟩ },
             { co := end_pos, handle_left := ⟨0, 0, 0⟩, handle_right := ⟨0, 0, 0⟩ }] }]
      resolution_u := 12
      bevel_depth := 0.05
      bevel_driver := false
      locationV := ⟨0, 0, 0⟩
      scaleV := ⟨1, 1, 1⟩
      children := []
      modifiers := []
      faces := [] }
  let curve_obj := update_cable_handles sq curve_obj
  setup_cable_drivers curve_obj

/-- Resolution paragraph of cable_update_handler: mirror the
    cable_resolution property (via int()) into resolution_u, writing only
    when different. -/
def resolutionStep (obj : Obj) : Obj :=
  if hasKey obj "cable_resolution" then
    match getNum obj "cable_resolution" with
    | some q =>
      let res := pyInt q
      if obj.resolution_u ≠ res then { obj with resolution_u := res } else obj
    | none => obj
  else obj

/-- Sag paragraph of cable_update_handler: recompute the handles when the
    cable_sag key is present. -/
def sagStep (sq : Sqrt) (obj : Obj) : Obj :=
  if hasKey obj "cable_sag" then update_cable_handles sq obj else obj

/-- Per-child body of the cap-scale paragraph of cable_update_handler:
    overwrite an end cap's scale with the uniform target when it differs
    by more than the 0.001 tolerance. -/
def capScaleChild (sq : Sqrt) (base_scale : ℚ) (child : Child) : Child :=
  if child.is_end_cap then
    let target_scale : Vec3 := ⟨base_scale, base_scale, base_scale⟩
    if 0.001 < length sq (child.scaleV - target_scale) then
      { child with scaleV := target_scale }
    else child
  else child

/-- Cap-scale paragraph of cable_update_handler: base scale is
    cable_thickness * 20.0 * end_cap_scale. -/
def capScaleStep (sq : Sqrt) (obj : Obj) : Obj :=
  if hasKey obj "cable_thickness" ∧ hasKey obj "end_cap_scale" then
    match getNum obj "cable_thickness", getNum obj "end_cap_scale" with
    | some thickness, some cap_scale_mult =>
      let base_scale := thickness * 20.0 * cap_scale_mult
      { obj with children := obj.children.map (capScaleChild sq base_scale) }
    | _, _ => obj
  else obj

/-- Array-scale paragraph of cable_update_handler for has_array meshes. -/
def arrayScaleStep (sq : Sqrt) (obj : Obj) : Obj :=
  if hasKey obj "array_scale" then
    match getNum obj "array_scale" with
    | some scale =>
      let current_scale : Vec3 := ⟨scale, scale, scale⟩
      if 0.001 < length sq (obj.scaleV - current_scale) then
        { obj with scaleV := current_scale }
      else obj
    | none => obj
  else obj

/-- Update of the one array modifier the handler touches: fit type from
    the truthiness of int(array_fit_curve), and in the fixed-count case
    the count from int(array_count).  The source writes each field only
    when it differs; writing the same value unconditionally is the same
    function on states. -/
def updateArrayMod (obj : Obj) (m : Modifier) : Modifier :=
  if hasKey obj "array_fit_curve" then
    match getNum obj "array_fit_curve" with
    | some q =>
      let fit_curve := pyInt q
      if fit_curve ≠ 0 then { m with fit_type := .FIT_CURVE }
      else
        let m := { m with fit_type := .FIXED_COUNT }
        if hasKey obj "array_count" then
          match getNum obj "array_count" with
          | some qc => { m with count := pyInt qc }
          | none => m
        else m
    | none => m
  else m

/-- The modifier loop of cable_update_handler: it breaks after the first
    ARRAY modifier, so only that one is updated. -/
def updateArrayMods (obj : Obj) : List Modifier → List Modifier
  | [] => []
  | m :: ms =>
    if m.mtype = .ARRAY then updateArrayMod obj m :: ms
    else m :: updateArrayMods obj ms

/-- Modifier paragraph of cable_update_handler. -/
def arrayModStep (obj : Obj) : Obj :=
  { obj with modifiers := updateArrayMods obj obj.modifiers }

/-- Per-object body of cable_update_handler (src/cable_generator.py:380). -/
def handleObj (sq : Sqrt) (obj : Obj) : Obj :=
  if obj.otype = .curve ∧ hasKey obj "is_cable" then
    capScaleStep sq (sagStep sq (resolutionStep obj))
  else if obj.otype = .mesh ∧ hasKey obj "has_array" then
    arrayModStep (arrayScaleStep sq obj)
  else obj

/-- cable_update_handler: the depsgraph handler iterates scene.objects
    and rewrites each object's derived data in place.  End caps appear in
    the scene as plain meshes without has_array, so iterating them at top
    level would change nothing; they are modelled as children of their
    cable only. -/
def cable_update_handler (sq : Sqrt) (scene : List Obj) : List Obj :=
  scene.map (handleObj sq)

inductive ConnMode where
  | SEQUENTIAL
  | ALL_TO_FIRST
deriving DecidableEq, Repr

/-- Outcome of an operator execute: FINISHED, CANCELLED, or an uncaught
    Python exception escaping execute. -/
inductive Status where
  | FINISHED
  | CANCELLED
  | EXCEPTION
deriving DecidableEq, Repr

inductive ReportLevel where
  | INFO
  | WARNING
  | ERROR
deriving DecidableEq, Repr

/-- The scene-level cable generation settings (CableGenProperties), with
    the PointerProperty fields recorded as whether a mesh is assigned. -/
structure GenProps where
  thickness : ℚ
  resolution : ℤ
  connection_mode : ConnMode
  add_end_caps : Bool
  end_cap_type : CapType
  end_cap_mesh : Bool
  organize_collections : Bool
  array_scale : ℚ
  array_mesh : Bool
deriving DecidableEq, Repr

/-- One entry of faces_data / centers_data: the originating object's name
    plus a world-space center and normal. -/
structure Item where
  objName : String
  center : Vec3
  normal : Vec3
deriving DecidableEq, Repr

/-- get_selected_faces (src/cable_generator.py:31): all selected faces of
    selected mesh objects in edit mode, in iteration order. -/
def get_selected_faces (selected_objects : List Obj) : List Item :=
  selected_objects.bind fun obj =>
    if obj.otype = .mesh ∧ obj.mode = .EDIT then
      (obj.faces.filter (·.select)).map fun f => ⟨obj.name, f.center, f.normal⟩
    else []

/-- get_object_centers (src/cable_generator.py:50): world locations of the
    selected mesh objects, each with the default Z-up normal. -/
def get_object_centers (selected_objects : List Obj) : List Item :=
  selected_objects.bind fun obj =>
    if obj.otype = .mesh then [⟨obj.name, obj.locationV, ⟨0, 0, 1⟩⟩] else []

/-- One iteration of the generation loops of
    CABLEGEN_OT_GenerateCable.execute: create the curve between the two
    items, override thickness/resolution from the panel settings, and
    optionally attach end caps (setting has_end_caps when the start cap
    was created). -/
def mkGenCable (sq : Sqrt) (gp : GenProps) (it1 it2 : Item)
    (cname : String) (sname ename : List Char) : Obj :=
  let curve_obj := create_curve_between_points sq it1.center it1.normal it2.center it2.normal cname
  let curve_obj := { curve_obj with
    props := setProp (setProp curve_obj.props "cable_thickness" (.num gp.thickness))
      "cable_resolution" (.num (gp.resolution : ℚ))
    resolution_u := gp.resolution }
  if gp.add_end_caps then
    let curve_obj :=
      match create_end_cap sq it1.center it1.normal gp.end_cap_type gp.end_cap_mesh
          (gp.thickness * 20.0) sname with
      | some start_cap =>
        { curve_obj with
          children := curve_obj.children ++ [start_cap]
          props := setProp curve_obj.props "has_end_caps" (.num 1) }
      | none => curve_obj
    match create_end_cap sq it2.center it2.normal gp.end_cap_type gp.end_cap_mesh
        (gp.thickness * 20.0) ename with
    | some end_cap => { curve_obj with children := curve_obj.children ++ [end_cap] }
    | none => curve_obj
  else curve_obj

/-- The sequential generation loop (`for i in range(len(data) - 1)`),
    used both for faces and for SEQUENTIAL object centers; `i` carries the
    running index used in the generated names. -/
def buildSeq (sq : Sqrt) (gp : GenProps) : Nat → List Item → List Obj
  | i, it1 :: it2 :: rest =>
    mkGenCable sq gp it1 it2 ("Cable_" ++ toString (i + 1))
      ("Cap_Start_" ++ toString (i + 1)).toList
      ("Cap_End_" ++ toString (i + 1)).toList
      :: buildSeq sq gp (i + 1) (it2 :: rest)
  | _, _ => []

/-- The ALL_TO_FIRST generation loop: one cable from the first item to
    each remaining item. -/
def buildAllToFirst (sq : Sqrt) (gp : GenProps) (first : Item) (rest : List Item) : List Obj :=
  rest.map fun obj =>
    mkGenCable sq gp first obj ("Cable_to_" ++ obj.objName)
      ("Cap_Start_to_" ++ obj.objName).toList
      ("Cap_End_to_" ++ obj.objName).toList

/-- Result of CABLEGEN_OT_GenerateCable.execute: the return status, the
    list of cable objects it created (created_cables), and the UI
    reports.  The optional move of the cables into a "Cables" collection
    reorganizes the outliner only and is not modelled. -/
structure ExecResult where
  status : Status
  cables : List Obj
  reports : List (ReportLevel × String)
deriving DecidableEq, Repr

/-- CABLEGEN_OT_GenerateCable.execute (src/cable_generator.py:440). -/
def generate_cable_execute (sq : Sqrt) (gp : GenProps) (selected_objects : List Obj) :
    ExecResult :=
  if selected_objects.isEmpty then
    ⟨.CANCELLED, [], [(.WARNING, "No objects selected")]⟩
  else
    let edit_mode_objects :=
      selected_objects.filter fun obj => obj.otype = .mesh ∧ obj.mode = .EDIT
    if ¬ edit_mode_objects.isEmpty then
      let faces_data := get_selected_faces selected_objects
      if faces_data.length < 2 then
        ⟨.CANCELLED, [], [(.WARNING, "Select at least 2 faces")]⟩
      else
        let created_cables := buildSeq sq gp 0 faces_data
        ⟨.FINISHED, created_cables,
          [(.INFO, toString created_cables.length ++ " cable(s) generated successfully")]⟩
    else
      let centers_data := get_object_centers selected_objects
      if centers_data.length < 2 then
        ⟨.CANCELLED, [], [(.WARNING, "Select at least 2 objects")]⟩
      else
        match gp.connection_mode, centers_data with
        | .SEQUENTIAL, _ =>
          let created_cables := buildSeq sq gp 0 centers_data
          ⟨.FINISHED, created_cables,
            [(.INFO, toString created_cables.length ++ " cable(s) generated successfully")]⟩
        | .ALL_TO_FIRST, first :: rest =>
          let created_cables := buildAllToFirst sq gp first rest
          ⟨.FINISHED, created_cables,
            [(.INFO, toString created_cables.length ++ " cable(s) generated successfully")]⟩
        | .ALL_TO_FIRST, [] =>
          ⟨.FINISHED, [], [(.INFO, "0 cable(s) generated successfully")]⟩

/-- Result of an operator acting on the active object: the status and the
    state of that object afterwards. -/
structure OpResult where
  status : Status
  obj : Option Obj
deriving DecidableEq, Repr

/-- CABLEGEN_OT_ToggleEndCaps.execute (src/cable_generator.py:599).
    Reading the two normals raises KeyError when absent (only
    start_pos/end_pos are checked first); that path is EXCEPTION. -/
def toggle_end_caps_execute (sq : Sqrt) (gp : GenProps) (active : Option Obj) : OpResult :=
  match active with
  | none => ⟨.CANCELLED, none⟩
  | some cable =>
    if ¬ (cable.otype = .curve ∧ hasKey cable "is_cable") then ⟨.CANCELLED, some cable⟩
    else if truthyProp cable "has_end_caps" then
      ⟨.FINISHED, some { cable with
        children := cable.children.filter fun child => ¬ child.is_end_cap
        props := setProp cable.props "has_end_caps" (.num 0) }⟩
    else if ¬ (hasKey cable "start_pos" ∧ hasKey cable "end_pos") then
      ⟨.CANCELLED, some cable⟩
    else
      match getVec cable "start_pos", getVec cable "end_pos",
          getVec cable "start_normal", getVec cable "end_normal" with
      | some start_pos, some end_pos, some start_normal, some end_normal =>
        let thickness := getNumD cable "cable_thickness" 0.05
        let cap_scale := getNumD cable "end_cap_scale" 1
        let cable :=
          match create_end_cap sq start_pos start_normal gp.end_cap_type gp.end_cap_mesh
              (thickness * 20.0 * cap_scale) ("Cap_Start_" ++ cable.name).toList with
          | some start_cap => { cable with children := cable.children ++ [start_cap] }
          | none => cable
        let cable :=
          match create_end_cap sq end_pos end_normal gp.end_cap_type gp.end_cap_mesh
              (thickness * 20.0 * cap_scale) ("Cap_End_" ++ cable.name).toList with
          | some end_cap => { cable with children := cable.children ++ [end_cap] }
          | none => cable
        let cable := { cable with props := setProp cable.props "has_end_caps" (.num 1) }
        ⟨.FINISHED, some (update_end_cap_orientations sq cable)⟩
      | _, _, _, _ => ⟨.EXCEPTION, some cable⟩

/-- Composite renaming a cap child undergoes in CABLEGEN_OT_ReverseCable:
    the three replace loops run over the disjoint snapshots of
    Cap_Start… and Cap_End… children, so per child they compose to the
    function below.  (Host-side name-collision suffixes are not
    modelled.) -/
def reversedCapName (nm : List Char) : List Char :=
  if capStartChars.isPrefixOf nm then
    replaceAll capEndTempChars capEndChars (replaceAll capStartChars capEndTempChars nm)
  else if capEndChars.isPrefixOf nm then
    replaceAll capEndChars capStartChars nm
  else nm

def renameCapChild (child : Child) : Child :=
  { child with name := reversedCapName child.name }

/-- CABLEGEN_OT_ReverseCable.execute (src/cable_generator.py:838).
    Reading the two normals raises KeyError when absent; that path is
    EXCEPTION. -/
def reverse_cable_execute (sq : Sqrt) (active : Option Obj) : OpResult :=
  match active with
  | none => ⟨.CANCELLED, none⟩
  | some cable =>
    if ¬ (cable.otype = .curve ∧ hasKey cable "is_cable") then ⟨.CANCELLED, some cable⟩
    else if hasKey cable "start_pos" ∧ hasKey cable "end_pos" then
      match getVec cable "start_pos", getVec cable "end_pos",
          getVec cable "start_normal", getVec cable "end_normal" with
      | some start_pos, some end_pos, some start_normal, some end_normal =>
        let swapped :=
          setProp (setProp (setProp (setProp cable.props
            "start_pos" (.vec end_pos)) "end_pos" (.vec start_pos))
            "start_normal" (.vec end_normal)) "end_normal" (.vec start_normal)
        let cable := { cable with props := swapped }
        let cable := update_cable_handles sq cable
        let cable := { cable with children := cable.children.map renameCapChild }
        ⟨.FINISHED, some (update_end_cap_orientations sq cable)⟩
      | _, _, _, _ => ⟨.EXCEPTION, some cable⟩
    else ⟨.CANCELLED, some cable⟩

/- Basic facts about the square-root parameter and the vector model. -/

theorem sq_one_of_good {sq : Sqrt} (h : GoodSqrtAt sq 1) : sq 1 = 1 := by
  rcases mul_self_eq_one_iff.mp h.2 with h1 | h1
  · exact h1
  · have h0 := h.1
    rw [h1] at h0
    norm_num at h0

theorem sq_zero_of_good {sq : Sqrt} (h : GoodSqrtAt sq 0) : sq 0 = 0 :=
  mul_self_eq_zero.mp h.2

theorem lenSq_nonneg (v : Vec3) : 0 ≤ lenSq v := by
  have hx := mul_self_nonneg v.x
  have hy := mul_self_nonneg v.y
  have hz := mul_self_nonneg v.z
  unfold lenSq
  linarith

theorem lenSq_eq_zero {v : Vec3} : lenSq v = 0 ↔ v = ⟨0, 0, 0⟩ := by
  constructor
  · intro h
    have hx := mul_self_nonneg v.x
    have hy := mul_self_nonneg v.y
    have hz := mul_self_nonneg v.z
    unfold lenSq at h
    have hx0 : v.x = 0 := by nlinarith
    have hy0 : v.y = 0 := by nlinarith
    have hz0 : v.z = 0 := by nlinarith
    apply Vec3.ext3 <;> simp [hx0, hy0, hz0]
  · intro h
    rw [h]
    norm_num [Vec3.lenSq]

/-- A unit stored normal passes unchanged through the source's
    normalize-then-default fixup. -/
theorem fixNormal_unit {sq : Sqrt} {v : Vec3} (hv : lenSq v = 1)
    (h1 : GoodSqrtAt sq 1) : fixNormal sq v = v := by
  have hs1 : sq 1 = 1 := sq_one_of_good h1
  have hnv : normalized sq v = v := by
    unfold normalized length
    rw [hv, hs1]
    norm_num
  have hl : length sq v = 1 := by
    unfold length
    rw [hv, hs1]
  unfold fixNormal
  rw [hnv]
  simp only [hl]
  norm_num

@[simp] theorem ueco_splines (sq : Sqrt) (o : Obj) :
    (update_end_cap_orientations sq o).splines = o.splines := by
  unfold update_end_cap_orientations
  split
  · rfl
  · split <;> rfl

@[simp] theorem ueco_props (sq : Sqrt) (o : Obj) :
    (update_end_cap_orientations sq o).props = o.props := by
  unfold update_end_cap_orientations
  split
  · rfl
  · split <;> rfl

/-- The handle positions as the specification phrases them: with
    d = |end_pos - start_pos|, L = 0.4*d, sag vector s = (0,0,-1)*d*sag,
    and handle directions equal to the stored unit normals, negated
    exactly when their dot with the start-to-end direction (resp. its
    reverse) is below -0.3. -/
def specCableHandles (sq : Sqrt) (sp ep ns ne : Vec3) (sag : ℚ)
    (spline : Spline) (p0 p1 : BezPoint) (tl : List BezPoint) : Spline :=
  let d := length sq (ep - sp)
  let direction := normalized sq (ep - sp)
  let start_dir := if Vec3.dot ns direction < -0.3 then -ns else ns
  let end_dir := if Vec3.dot ne (-direction) < -0.3 then -ne else ne
  let L := 0.4 * d
  let s := (d * sag) • (⟨0, 0, -1⟩ : Vec3)
  { spline with bezier_points :=
      { p0 with
        handle_left := sp - (0.3 * L) • start_dir,
        handle_right := sp + L • start_dir + (0.5 : ℚ) • s } ::
      { p1 with
        handle_left := ep + L • end_dir + (0.5 : ℚ) • s,
        handle_right := ep - (0.3 * L) • end_dir } :: tl }

/-- C1: for a cable curve carrying start_pos, end_pos, start_normal,
    end_normal and cable_sag metadata (the stored normals being unit
    vectors) whose first spline has at least two bezier points,
    update_cable_handles sets the four handle positions to exactly the
    positions the specification derives from that metadata. -/
theorem C1_cable_handles_formula (sq : Sqrt) (o : Obj) (spline : Spline)
    (rest : List Spline) (p0 p1 : BezPoint) (tl : List BezPoint)
    (sp ep ns ne : Vec3) (sag : ℚ)
    (hsp : o.splines = spline :: rest)
    (hbp : spline.bezier_points = p0 :: p1 :: tl)
    (h1 : getProp o "start_pos" = some (.vec sp))
    (h2 : getProp o "end_pos" = some (.vec ep))
    (h3 : getProp o "start_normal" = some (.vec ns))
    (h4 : getProp o "end_normal" = some (.vec ne))
    (h5 : getProp o "cable_sag" = some (.num sag))
    (hns : lenSq ns = 1) (hne : lenSq ne = 1)
    (hsq1 : GoodSqrtAt sq 1) :
    (update_cable_handles sq o).splines =
      specCableHandles sq sp ep ns ne sag spline p0 p1 tl :: rest := by
  have hfs : fixNormal sq ns = ns := fixNormal_unit hns hsq1
  have hfe : fixNormal sq ne = ne := fixNormal_unit hne hsq1
  unfold update_cable_handles
  simp only [getVec, h1, h2, h3, h4, hsp, hbp, getNumD, h5]
  simp only [hfs, hfe, ueco_splines]
  unfold specCableHandles
  simp only [List.cons.injEq, and_true]
  have e1 : length sq (ep - sp) * 0.4 * 0.3 = 0.3 * (0.4 * length sq (ep - sp)) := by
    ring
  have e2 : length sq (ep - sp) * 0.4 = 0.4 * length sq (ep - sp) := by
    ring
  rw [e1, e2]

/-- Square-root routine used by the concrete witnesses: correct at the
    values 0, 1 and 4 that they exercise. -/
def sqW : Sqrt := fun q => if q = 1 then 1 else if q = 4 then 2 else 0

/-- Concrete cable used by the C1 witness. -/
def oC1 : Obj :=
  { name := "Cable_1"
    otype := .curve
    mode := .OBJECT
    props :=
      [("start_pos", .vec ⟨0, 0, 0⟩),
       ("end_pos", .vec ⟨2, 0, 0⟩),
       ("start_normal", .vec ⟨0, 0, 1⟩),
       ("end_normal", .vec ⟨0, 0, 1⟩),
       ("cable_sag", .num 0.5)]
    splines :=
      [{ bezier_points :=
          [{ co := ⟨0, 0, 0⟩, handle_left := ⟨0, 0, 0⟩, handle_right := ⟨0, 0, 0⟩ },
           { co := ⟨2, 0, 0⟩, handle_left := ⟨0, 0, 0⟩, handle_right := ⟨0, 0, 0⟩ }] }]
    resolution_u := 12
    bevel_depth := 0.05
    bevel_driver := false
    locationV := ⟨0, 0, 0⟩
    scaleV := ⟨1, 1, 1⟩
    children := []
    modifiers := []
    faces := [] }

theorem C1_cable_handles_formula_witness :
    lenSq (⟨0, 0, 1⟩ : Vec3) = 1 ∧ GoodSqrtAt sqW 1 ∧
    (update_cable_handles sqW oC1).splines =
      specCableHandles sqW ⟨0, 0, 0⟩ ⟨2, 0, 0⟩ ⟨0, 0, 1⟩ ⟨0, 0, 1⟩ 0.5
        { bezier_points :=
            [{ co := ⟨0, 0, 0⟩, handle_left := ⟨0, 0, 0⟩, handle_right := ⟨0, 0, 0⟩ },
             { co := ⟨2, 0, 0⟩, handle_left := ⟨0, 0, 0⟩, handle_right := ⟨0, 0, 0⟩ }] }
        { co := ⟨0, 0, 0⟩, handle_left := ⟨0, 0, 0⟩, handle_right := ⟨0, 0, 0⟩ }
        { co := ⟨2, 0, 0⟩, handle_left := ⟨0, 0, 0⟩, handle_right := ⟨0, 0, 0⟩ }
        [] :: [] :=
  ⟨by norm_num [Vec3.lenSq], ⟨by norm_num [sqW], by norm_num [sqW]⟩,
    C1_cable_handles_formula sqW oC1 _ [] _ _ []
      ⟨0, 0, 0⟩ ⟨2, 0, 0⟩ ⟨0, 0, 1⟩ ⟨0, 0, 1⟩ 0.5
      rfl rfl rfl rfl rfl rfl rfl (by norm_num [Vec3.lenSq])
      (by norm_num [Vec3.lenSq]) ⟨by norm_num [sqW], by norm_num [sqW]⟩⟩

theorem lenSq_smul (c : ℚ) (v : Vec3) : lenSq (c • v) = c * c * lenSq v := by
  unfold lenSq
  simp
  ring

/-- The degenerate input: a zero normal is replaced by (0, 0, 1). -/
theorem fixNormal_zero {sq : Sqrt} (h0 : GoodSqrtAt sq 0) :
    fixNormal sq ⟨0, 0, 0⟩ = ⟨0, 0, 1⟩ := by
  have hs0 : sq 0 = 0 := sq_zero_of_good h0
  have hz : lenSq (⟨0, 0, 0⟩ : Vec3) = 0 := by norm_num [Vec3.lenSq]
  have hn : normalized sq ⟨0, 0, 0⟩ = ⟨0, 0, 0⟩ := by
    unfold normalized length
    rw [hz, hs0]
    norm_num
  have hl : length sq (⟨0, 0, 0⟩ : Vec3) = 0 := by
    unfold length
    rw [hz, hs0]
  unfold fixNormal
  rw [hn]
  simp only [hl]
  norm_num

/-- On a nonzero input (with a correct square root) the fixup returns the
    true normalization: a unit-length positive multiple of the input. -/
theorem fixNormal_nonzero {sq : Sqrt} {v : Vec3} (hv : v ≠ ⟨0, 0, 0⟩)
    (hg : GoodSqrtAt sq (lenSq v)) (h1 : GoodSqrtAt sq 1) :
    lenSq (fixNormal sq v) = 1 ∧ ∃ c : ℚ, 0 < c ∧ fixNormal sq v = c • v := by
  have ha0 : sq (lenSq v) ≠ 0 := by
    intro h
    have : lenSq v = 0 := by
      have := hg.2
      rw [h] at this
      linarith
    exact hv (lenSq_eq_zero.mp this)
  have hapos : 0 < sq (lenSq v) := lt_of_le_of_ne hg.1 (Ne.symm ha0)
  have hnv : normalized sq v = (1 / sq (lenSq v)) • v := by
    unfold normalized length
    rw [if_neg ha0]
  have hunit : lenSq (normalized sq v) = 1 := by
    rw [hnv, lenSq_smul]
    field_simp
    nlinarith [hg.2]
  have hfix : fixNormal sq v = normalized sq v := by
    unfold fixNormal
    have hlen1 : length sq (normalized sq v) = 1 := by
      unfold length
      rw [hunit, sq_one_of_good h1]
    simp only [hlen1]
    norm_num
  refine ⟨by rw [hfix]; exact hunit, 1 / sq (lenSq v), by positivity, ?_⟩
  rw [hfix, hnv]

@[simp] theorem uch_props (sq : Sqrt) (o : Obj) :
    (update_cable_handles sq o).props = o.props := by
  unfold update_cable_handles
  repeat' split
  all_goals simp [ueco_props]

/-- C8: every curve object returned by create_curve_between_points is
    tagged is_cable and carries exactly the advertised metadata keys with
    the advertised initial values; the stored normals are the given
    normals sent through the source's normalize-or-default fixup, which
    (conjuncts on a fresh vector) yields (0,0,1) on a degenerate input
    and the unit-length positive rescaling on a nonzero input. -/
theorem C8_create_curve_metadata (sq : Sqrt) (sp ns ep ne : Vec3) (nm : String) :
    ((create_curve_between_points sq sp ns ep ne nm).props.map Prod.fst =
      ["is_cable", "cable_thickness", "cable_resolution", "cable_sag",
       "start_pos", "end_pos", "start_normal", "end_normal",
       "has_end_caps", "end_cap_scale"]) ∧
    getNum (create_curve_between_points sq sp ns ep ne nm) "is_cable" = some 1 ∧
    getNum (create_curve_between_points sq sp ns ep ne nm) "cable_thickness" = some 0.05 ∧
    getNum (create_curve_between_points sq sp ns ep ne nm) "cable_resolution" = some 12 ∧
    getNum (create_curve_between_points sq sp ns ep ne nm) "cable_sag" = some 0 ∧
    getVec (create_curve_between_points sq sp ns ep ne nm) "start_pos" = some sp ∧
    getVec (create_curve_between_points sq sp ns ep ne nm) "end_pos" = some ep ∧
    getVec (create_curve_between_points sq sp ns ep ne nm) "start_normal" =
      some (fixNormal sq ns) ∧
    getVec (create_curve_between_points sq sp ns ep ne nm) "end_normal" =
      some (fixNormal sq ne) ∧
    getNum (create_curve_between_points sq sp ns ep ne nm) "has_end_caps" = some 0 ∧
    getNum (create_curve_between_points sq sp ns ep ne nm) "end_cap_scale" = some 1 ∧
    (∀ v : Vec3, v = ⟨0, 0, 0⟩ → GoodSqrtAt sq 0 → fixNormal sq v = ⟨0, 0, 1⟩) ∧
    (∀ v : Vec3, v ≠ ⟨0, 0, 0⟩ → GoodSqrtAt sq (lenSq v) → GoodSqrtAt sq 1 →
      lenSq (fixNormal sq v) = 1 ∧ ∃ c : ℚ, 0 < c ∧ fixNormal sq v = c • v) := by
  unfold create_curve_between_points setup_cable_drivers
  refine ⟨?_, ?_, ?_, ?_, ?_, ?_, ?_, ?_, ?_, ?_, ?_, ?_, ?_⟩
  all_goals
    first
    | (intro v hv h0
       rw [hv]
       exact fixNormal_zero h0)
    | (intro v hv hg h1
       exact fixNormal_nonzero hv hg h1)
    | (simp only [getNum, getVec, getProp, uch_props]
       rfl)

/-- Concrete witness data for C8: a degenerate start normal and a
    non-unit end normal. -/
theorem C8_create_curve_metadata_witness :
    getVec (create_curve_between_points sqW ⟨0, 0, 0⟩ ⟨0, 0, 0⟩ ⟨2, 0, 0⟩ ⟨0, 0, 2⟩ "Cable_1")
        "start_normal" = some (fixNormal sqW ⟨0, 0, 0⟩) ∧
    GoodSqrtAt sqW 0 ∧ fixNormal sqW ⟨0, 0, 0⟩ = ⟨0, 0, 1⟩ ∧
    (⟨0, 0, 2⟩ : Vec3) ≠ ⟨0, 0, 0⟩ ∧ GoodSqrtAt sqW (lenSq ⟨0, 0, 2⟩) ∧ GoodSqrtAt sqW 1 ∧
    (lenSq (fixNormal sqW ⟨0, 0, 2⟩) = 1 ∧
      ∃ c : ℚ, 0 < c ∧ fixNormal sqW ⟨0, 0, 2⟩ = c • (⟨0, 0, 2⟩ : Vec3)) :=
  ⟨(C8_create_curve_metadata sqW ⟨0, 0, 0⟩ ⟨0, 0, 0⟩ ⟨2, 0, 0⟩ ⟨0, 0, 2⟩
      "Cable_1").2.2.2.2.2.2.2.1,
   ⟨by norm_num [sqW], by norm_num [sqW]⟩,
   (C8_create_curve_metadata sqW ⟨0, 0, 0⟩ ⟨0, 0, 0⟩ ⟨2, 0, 0⟩ ⟨0, 0, 2⟩
      "Cable_1").2.2.2.2.2.2.2.2.2.2.2.1 ⟨0, 0, 0⟩ rfl
      ⟨by norm_num [sqW], by norm_num [sqW]⟩,
   by simp [Vec3.mk.injEq],
   ⟨by norm_num [sqW, Vec3.lenSq], by norm_num [sqW, Vec3.lenSq]⟩,
   ⟨by norm_num [sqW], by norm_num [sqW]⟩,
   (C8_create_curve_metadata sqW ⟨0, 0, 0⟩ ⟨0, 0, 0⟩ ⟨2, 0, 0⟩ ⟨0, 0, 2⟩
      "Cable_1").2.2.2.2.2.2.2.2.2.2.2.2 ⟨0, 0, 2⟩ (by simp [Vec3.mk.injEq])
      ⟨by norm_num [sqW, Vec3.lenSq], by norm_num [sqW, Vec3.lenSq]⟩
      ⟨by norm_num [sqW], by norm_num [sqW]⟩⟩

@[simp] theorem orientChild_name (sq : Sqrt) (s : Spline) (c : Child) :
    (orientChild sq s c).name = c.name := by
  unfold orientChild
  repeat' split
  all_goals rfl

@[simp] theorem orientChild_locationV (sq : Sqrt) (s : Spline) (c : Child) :
    (orientChild sq s c).locationV = c.locationV := by
  unfold orientChild
  repeat' split
  all_goals rfl

@[simp] theorem orientChild_scaleV (sq : Sqrt) (s : Spline) (c : Child) :
    (orientChild sq s c).scaleV = c.scaleV := by
  unfold orientChild
  repeat' split
  all_goals rfl

@[simp] theorem orientChild_is_end_cap (sq : Sqrt) (s : Spline) (c : Child) :
    (orientChild sq s c).is_end_cap = c.is_end_cap := by
  unfold orientChild
  repeat' split
  all_goals rfl

theorem ueco_children_locations (sq : Sqrt) (o : Obj) :
    (update_end_cap_orientations sq o).children.map Child.locationV =
      o.children.map Child.locationV := by
  unfold update_end_cap_orientations
  split
  · rfl
  · split
    · rfl
    · simp [List.map_map, Function.comp_def]

/-- Cable used by the C6 counterexample: a Cap_Start child sitting at
    x = 5. -/
def oC6A : Obj :=
  { name := "Cable_1"
    otype := .curve
    mode := .OBJECT
    props := [("is_cable", .num 1)]
    splines :=
      [{ bezier_points :=
          [{ co := ⟨0, 0, 0⟩, handle_left := ⟨0, 0, 0⟩, handle_right := ⟨1, 0, 0⟩ },
           { co := ⟨2, 0, 0⟩, handle_left := ⟨1, 0, 0⟩, handle_right := ⟨0, 0, 0⟩ }] }]
    resolution_u := 12
    bevel_depth := 0.05
    bevel_driver := false
    locationV := ⟨0, 0, 0⟩
    scaleV := ⟨1, 1, 1⟩
    children :=
      [{ name := capStartChars
         locationV := ⟨5, 0, 0⟩
         scaleV := ⟨1, 1, 1⟩
         rotation := ⟨⟨1, 0, 0⟩, ⟨0, 1, 0⟩, ⟨0, 0, 1⟩⟩
         is_end_cap := true }]
    modifiers := []
    faces := [] }

/-- Identical to oC6A except that the cap child sits at x = 6. -/
def oC6B : Obj :=
  { oC6A with children :=
      [{ name := capStartChars
         locationV := ⟨6, 0, 0⟩
         scaleV := ⟨1, 1, 1⟩
         rotation := ⟨⟨1, 0, 0⟩, ⟨0, 1, 0⟩, ⟨0, 0, 1⟩⟩
         is_end_cap := true }] }

/-- C6 counterexample: two cables with identical splines (hence identical
    endpoint tangents) but caps at different prior locations produce
    different cap transforms after update_end_cap_orientations, so the
    cap's world transform is not fully derived from the parent's endpoint
    tangent (the prior location survives). -/
theorem C6_cap_transform_counterexample :
    oC6A.splines = oC6B.splines ∧
    (update_end_cap_orientations sqW oC6A).children.map Child.locationV ≠
      (update_end_cap_orientations sqW oC6B).children.map Child.locationV := by
  refine ⟨rfl, ?_⟩
  rw [ueco_children_locations, ueco_children_locations]
  show [(⟨5, 0, 0⟩ : Vec3)] ≠ [⟨6, 0, 0⟩]
  simp only [ne_eq, List.cons.injEq, and_true, Vec3.mk.injEq]
  norm_num

/-- C6 amended: after update_end_cap_orientations (on a first spline with
    at least two points) each Cap_Start… child's rotation is the
    alignment matrix of the start tangent (handle_right minus point) and
    each Cap_End… child's rotation that of the end tangent (point minus
    handle_left); the alignment matrix sends the local Z axis to the
    tangent; and the cap's location, scale and name are preserved from
    its prior state rather than being derived from the tangent. -/
theorem C6_cap_orientation_amended (sq : Sqrt) (o : Obj) (spline : Spline)
    (rest : List Spline) (p0 p1 : BezPoint) (tl : List BezPoint)
    (hsp : o.splines = spline :: rest)
    (hbp : spline.bezier_points = p0 :: p1 :: tl) :
    (update_end_cap_orientations sq o).children = o.children.map (orientChild sq spline) ∧
    (∀ c : Child, capStartChars.isPrefixOf c.name = true →
      orientChild sq spline c =
        { c with rotation := alignZ sq (normalized sq (p0.handle_right - p0.co)) }) ∧
    (∀ c : Child, capStartChars.isPrefixOf c.name = false →
      capEndChars.isPrefixOf c.name = true →
      orientChild sq spline c =
        { c with rotation := alignZ sq (normalized sq (p1.co - p1.handle_left)) }) ∧
    (∀ t : Vec3, (alignZ sq t).colz = t) ∧
    (∀ c : Child, (orientChild sq spline c).locationV = c.locationV ∧
      (orientChild sq spline c).scaleV = c.scaleV ∧
      (orientChild sq spline c).name = c.name) := by
  refine ⟨?_, ?_, ?_, fun t => rfl, fun c => ⟨by simp, by simp, by simp⟩⟩
  · unfold update_end_cap_orientations
    rw [hsp]
    simp only [hbp, List.length_cons]
    rw [if_neg (by omega)]
  · intro c hpre
    unfold orientChild
    rw [if_pos hpre, hbp]
  · intro c hpre1 hpre2
    unfold orientChild
    rw [if_neg (by simp [hpre1]), if_pos hpre2, hbp]

/- Lemmas about str.replace and the cap-name markers, for the
   reverse-direction claim. -/

theorem isPrefixOf_append_self (l t : List Char) : l.isPrefixOf (l ++ t) = true := by
  induction l with
  | nil => simp [List.isPrefixOf]
  | cons a as ih => simp [List.isPrefixOf, ih]

theorem exists_of_isPrefixOf {p n : List Char} (h : p.isPrefixOf n = true) :
    ∃ t, n = p ++ t := by
  induction p generalizing n with
  | nil => exact ⟨n, rfl⟩
  | cons a as ih =>
    cases n with
    | nil => simp [List.isPrefixOf] at h
    | cons b bs =>
      simp only [List.isPrefixOf, Bool.and_eq_true, beq_iff_eq] at h
      obtain ⟨t, ht⟩ := ih h.2
      exact ⟨t, by rw [h.1, ht]; rfl⟩

theorem replaceAll_of_isPrefixOf {p : List Char} (r : List Char) {n : List Char}
    (hp : p ≠ []) (hpre : p.isPrefixOf n = true) :
    replaceAll p r n = r ++ replaceAll p r (n.drop p.length) := by
  match n with
  | [] =>
    cases p with
    | nil => exact absurd rfl hp
    | cons a as => simp [List.isPrefixOf] at hpre
  | c :: rest =>
    rw [replaceAll]
    rw [dif_pos ⟨hp, hpre⟩]

theorem replaceAll_startsWith {p : List Char} (r : List Char) {n : List Char}
    (hp : p ≠ []) (hpre : p.isPrefixOf n = true) :
    ∃ t, replaceAll p r n = r ++ t :=
  ⟨_, replaceAll_of_isPrefixOf r hp hpre⟩

theorem capStartVsEnd (t : List Char) :
    capStartChars.isPrefixOf (capEndChars ++ t) = false := by
  simp [capStartChars, capEndChars, List.isPrefixOf]

theorem capEndVsStart (t : List Char) :
    capEndChars.isPrefixOf (capStartChars ++ t) = false := by
  simp [capStartChars, capEndChars, List.isPrefixOf]

/-- A name cannot carry both cap markers: the Cap_Start marker excludes
    the Cap_End marker. -/
theorem notBothMarkers {nm : List Char} (h : capStartChars.isPrefixOf nm = true) :
    capEndChars.isPrefixOf nm = false := by
  obtain ⟨t, ht⟩ := exists_of_isPrefixOf h
  rw [ht]
  exact capEndVsStart t

/-- One reversal sends a Cap_Start… name to a Cap_End… name. -/
theorem reversedCapName_start {nm : List Char}
    (h : capStartChars.isPrefixOf nm = true) :
    ∃ t, reversedCapName nm = capEndChars ++ t := by
  unfold reversedCapName
  rw [if_pos h]
  obtain ⟨t1, ht1⟩ :=
    replaceAll_startsWith (p := capStartChars) capEndTempChars (by simp [capStartChars]) h
  rw [ht1]
  exact replaceAll_startsWith (p := capEndTempChars) capEndChars
    (by simp [capEndTempChars]) (isPrefixOf_append_self _ _)

/-- One reversal sends a Cap_End… name to a Cap_Start… name. -/
theorem reversedCapName_end {nm : List Char}
    (h1 : capStartChars.isPrefixOf nm = false)
    (h2 : capEndChars.isPrefixOf nm = true) :
    ∃ t, reversedCapName nm = capStartChars ++ t := by
  unfold reversedCapName
  rw [if_neg (by simp [h1]), if_pos h2]
  exact replaceAll_startsWith (p := capEndChars) capStartChars (by simp [capEndChars]) h2

/-- Names with neither marker are left alone. -/
theorem reversedCapName_other {nm : List Char}
    (h1 : capStartChars.isPrefixOf nm = false)
    (h2 : capEndChars.isPrefixOf nm = false) :
    reversedCapName nm = nm := by
  unfold reversedCapName
  rw [if_neg (by simp [h1]), if_neg (by simp [h2])]

theorem reversedCapName_start_markers {nm : List Char}
    (h : capStartChars.isPrefixOf nm = true) :
    capEndChars.isPrefixOf (reversedCapName nm) = true ∧
      capStartChars.isPrefixOf (reversedCapName nm) = false := by
  obtain ⟨t, ht⟩ := reversedCapName_start h
  rw [ht]
  exact ⟨isPrefixOf_append_self _ _, capStartVsEnd t⟩

theorem reversedCapName_end_markers {nm : List Char}
    (h : capEndChars.isPrefixOf nm = true) :
    capStartChars.isPrefixOf (reversedCapName nm) = true ∧
      capEndChars.isPrefixOf (reversedCapName nm) = false := by
  have h1 : capStartChars.isPrefixOf nm = false := by
    by_contra hc
    have h1' : capStartChars.isPrefixOf nm = true := by
      revert hc
      cases capStartChars.isPrefixOf nm <;> simp
    rw [notBothMarkers h1'] at h
    exact Bool.false_ne_true h
  obtain ⟨t, ht⟩ := reversedCapName_end h1 h
  rw [ht]
  exact ⟨isPrefixOf_append_self _ _, capEndVsStart t⟩

/-- Two reversals restore the Cap_Start marker. -/
theorem reversedCapName_twice_start {nm : List Char}
    (h : capStartChars.isPrefixOf nm = true) :
    capStartChars.isPrefixOf (reversedCapName (reversedCapName nm)) = true :=
  (reversedCapName_end_markers (reversedCapName_start_markers h).1).1

/-- Two reversals restore the Cap_End marker. -/
theorem reversedCapName_twice_end {nm : List Char}
    (h : capEndChars.isPrefixOf nm = true) :
    capEndChars.isPrefixOf (reversedCapName (reversedCapName nm)) = true :=
  (reversedCapName_start_markers (reversedCapName_end_markers h).1).1

theorem lookup_setProp_self (ps : List (String × PVal)) (k : String) (v : PVal) :
    lookupProp (setProp ps k v) k = some v := by
  induction ps with
  | nil => simp [setProp, lookupProp]
  | cons hd tl ih =>
    obtain ⟨k', v'⟩ := hd
    by_cases h : k' = k
    · simp [setProp, lookupProp, h]
    · simp [setProp, lookupProp, h, ih]

theorem lookup_setProp_ne (ps : List (String × PVal)) (k : String) (v : PVal)
    (k' : String) (h : k' ≠ k) :
    lookupProp (setProp ps k v) k' = lookupProp ps k' := by
  induction ps with
  | nil =>
    simp only [setProp, lookupProp]
    rw [if_neg (Ne.symm h)]
  | cons hd tl ih =>
    obtain ⟨k'', v''⟩ := hd
    by_cases h2 : k'' = k
    · subst h2
      simp [setProp, lookupProp, Ne.symm h]
    · simp [setProp, lookupProp, h2, ih]

theorem hasKey_of_getProp {o : Obj} {k : String} {v : PVal}
    (h : getProp o k = some v) : hasKey o k = true := by
  simp [hasKey, h]

@[simp] theorem ueco_otype (sq : Sqrt) (o : Obj) :
    (update_end_cap_orientations sq o).otype = o.otype := by
  unfold update_end_cap_orientations
  split
  · rfl
  · split <;> rfl

theorem ueco_children_names (sq : Sqrt) (o : Obj) :
    (update_end_cap_orientations sq o).children.map Child.name =
      o.children.map Child.name := by
  unfold update_end_cap_orientations
  split
  · rfl
  · split
    · rfl
    · simp [List.map_map, Function.comp_def]

@[simp] theorem uch_otype (sq : Sqrt) (o : Obj) :
    (update_cable_handles sq o).otype = o.otype := by
  unfold update_cable_handles
  repeat' split
  all_goals simp [ueco_otype]

theorem uch_children_names (sq : Sqrt) (o : Obj) :
    (update_cable_handles sq o).children.map Child.name =
      o.children.map Child.name := by
  unfold update_cable_handles
  repeat' split
  all_goals simp [ueco_children_names]

@[simp] theorem renameCapChild_name (c : Child) :
    (renameCapChild c).name = reversedCapName c.name := rfl

theorem uch_children_names_comp (sq : Sqrt) (o : Obj) (f : List Char → List Char) :
    (update_cable_handles sq o).children.map (fun c => f c.name) =
      o.children.map (fun c => f c.name) := by
  have h5 := uch_children_names sq o
  calc (update_cable_handles sq o).children.map (fun c => f c.name)
      = ((update_cable_handles sq o).children.map Child.name).map f := by
        rw [List.map_map]
        rfl
    _ = (o.children.map Child.name).map f := by rw [h5]
    _ = o.children.map (fun c => f c.name) := by
        rw [List.map_map]
        rfl

/-- What one successful run of the reverse operator does: FINISHED status,
    the four metadata entries swapped, every other key untouched, the
    object kind kept, and every child's name sent through
    reversedCapName. -/
theorem reverse_run (sq : Sqrt) (cable : Obj) (sp ep sn en : Vec3)
    (hty : cable.otype = .curve)
    (hic : hasKey cable "is_cable" = true)
    (h1 : getProp cable "start_pos" = some (.vec sp))
    (h2 : getProp cable "end_pos" = some (.vec ep))
    (h3 : getProp cable "start_normal" = some (.vec sn))
    (h4 : getProp cable "end_normal" = some (.vec en)) :
    (reverse_cable_execute sq (some cable)).status = .FINISHED ∧
    ∀ cable1, (reverse_cable_execute sq (some cable)).obj = some cable1 →
      getProp cable1 "start_pos" = some (.vec ep) ∧
      getProp cable1 "end_pos" = some (.vec sp) ∧
      getProp cable1 "start_normal" = some (.vec en) ∧
      getProp cable1 "end_normal" = some (.vec sn) ∧
      cable1.otype = cable.otype ∧
      (∀ k, k ≠ "start_pos" → k ≠ "end_pos" → k ≠ "start_normal" → k ≠ "end_normal" →
        getProp cable1 k = getProp cable k) ∧
      cable1.children.map Child.name =
        cable.children.map (fun c => reversedCapName c.name) := by
  simp only [reverse_cable_execute]
  rw [if_neg (not_not_intro ⟨hty, by simp [hic]⟩)]
  rw [if_pos ⟨by simp [hasKey_of_getProp h1], by simp [hasKey_of_getProp h2]⟩]
  simp only [getVec, h1, h2, h3, h4]
  refine ⟨by trivial, ?_⟩
  intro cable1 hc1
  have hc1' := Option.some.inj hc1
  subst hc1'
  refine ⟨?_, ?_, ?_, ?_, ?_, ?_, ?_⟩
  · simp only [getProp, ueco_props, uch_props]
    show lookupProp (setProp _ "end_normal" _) "start_pos" = _
    rw [lookup_setProp_ne _ _ _ _ (by decide), lookup_setProp_ne _ _ _ _ (by decide),
      lookup_setProp_ne _ _ _ _ (by decide), lookup_setProp_self]
  · simp only [getProp, ueco_props, uch_props]
    show lookupProp (setProp _ "end_normal" _) "end_pos" = _
    rw [lookup_setProp_ne _ _ _ _ (by decide), lookup_setProp_ne _ _ _ _ (by decide),
      lookup_setProp_self]
  · simp only [getProp, ueco_props, uch_props]
    show lookupProp (setProp _ "end_normal" _) "start_normal" = _
    rw [lookup_setProp_ne _ _ _ _ (by decide), lookup_setProp_self]
  · simp only [getProp, ueco_props, uch_props]
    show lookupProp (setProp _ "end_normal" _) "end_normal" = _
    rw [lookup_setProp_self]
  · simp [ueco_otype, uch_otype]
  · intro k hk1 hk2 hk3 hk4
    simp only [getProp, ueco_props, uch_props]
    show lookupProp (setProp _ "end_normal" _) k = _
    rw [lookup_setProp_ne _ _ _ _ hk4, lookup_setProp_ne _ _ _ _ hk3,
      lookup_setProp_ne _ _ _ _ hk2, lookup_setProp_ne _ _ _ _ hk1]
  · rw [ueco_children_names]
    show ((update_cable_handles sq _).children.map renameCapChild).map Child.name =
      cable.children.map (fun c => reversedCapName c.name)
    rw [List.map_map]
    have hcomp : (Child.name ∘ renameCapChild) = fun c : Child => reversedCapName c.name := rfl
    rw [hcomp]
    exact uch_children_names_comp sq _ reversedCapName

/-- C9: the Reverse Direction operator swaps start_pos with end_pos and
    start_normal with end_normal and swaps every cap child's
    Cap_Start/Cap_End name marker; running it twice restores the four
    metadata values and every cap child's name marker. -/
theorem C9_reverse_involution (sq : Sqrt) (cable : Obj) (sp ep sn en : Vec3)
    (hty : cable.otype = .curve)
    (hic : hasKey cable "is_cable" = true)
    (h1 : getProp cable "start_pos" = some (.vec sp))
    (h2 : getProp cable "end_pos" = some (.vec ep))
    (h3 : getProp cable "start_normal" = some (.vec sn))
    (h4 : getProp cable "end_normal" = some (.vec en)) :
    (reverse_cable_execute sq (some cable)).status = .FINISHED ∧
    (∀ cable1, (reverse_cable_execute sq (some cable)).obj = some cable1 →
      (getProp cable1 "start_pos" = some (.vec ep) ∧
       getProp cable1 "end_pos" = some (.vec sp) ∧
       getProp cable1 "start_normal" = some (.vec en) ∧
       getProp cable1 "end_normal" = some (.vec sn)) ∧
      cable1.children.map Child.name =
        cable.children.map (fun c => reversedCapName c.name) ∧
      (reverse_cable_execute sq (some cable1)).status = .FINISHED ∧
      (∀ cable2, (reverse_cable_execute sq (some cable1)).obj = some cable2 →
        (getProp cable2 "start_pos" = some (.vec sp) ∧
         getProp cable2 "end_pos" = some (.vec ep) ∧
         getProp cable2 "start_normal" = some (.vec sn) ∧
         getProp cable2 "end_normal" = some (.vec en)) ∧
        cable2.children.map Child.name =
          cable.children.map (fun c => reversedCapName (reversedCapName c.name)))) ∧
    (∀ nm : List Char, capStartChars.isPrefixOf nm = true →
      capEndChars.isPrefixOf (reversedCapName nm) = true ∧
      capStartChars.isPrefixOf (reversedCapName (reversedCapName nm)) = true) ∧
    (∀ nm : List Char, capEndChars.isPrefixOf nm = true →
      capStartChars.isPrefixOf (reversedCapName nm) = true ∧
      capEndChars.isPrefixOf (reversedCapName (reversedCapName nm)) = true) ∧
    (∀ nm : List Char, capStartChars.isPrefixOf nm = false →
      capEndChars.isPrefixOf nm = false → reversedCapName nm = nm) := by
  obtain ⟨hst1, hrun1⟩ := reverse_run sq cable sp ep sn en hty hic h1 h2 h3 h4
  refine ⟨hst1, ?_,
    fun nm h => ⟨(reversedCapName_start_markers h).1, reversedCapName_twice_start h⟩,
    fun nm h => ⟨(reversedCapName_end_markers h).1, reversedCapName_twice_end h⟩,
    fun nm hs he => reversedCapName_other hs he⟩
  intro cable1 hc1
  obtain ⟨g1, g2, g3, g4, gty, gother, gnames⟩ := hrun1 cable1 hc1
  have hic1 : hasKey cable1 "is_cable" = true := by
    obtain ⟨v, hv⟩ := Option.isSome_iff_exists.mp (by simpa [hasKey] using hic)
    exact hasKey_of_getProp (by rw [gother "is_cable" (by decide) (by decide)
      (by decide) (by decide)]; exact hv)
  obtain ⟨hst2, hrun2⟩ := reverse_run sq cable1 ep sp en sn (by rw [gty, hty]) hic1 g1 g2 g3 g4
  refine ⟨⟨g1, g2, g3, g4⟩, gnames, hst2, ?_⟩
  intro cable2 hc2
  obtain ⟨f1, f2, f3, f4, fty, fother, fnames⟩ := hrun2 cable2 hc2
  refine ⟨⟨f1, f2, f3, f4⟩, ?_⟩
  calc cable2.children.map Child.name
      = cable1.children.map (fun c => reversedCapName c.name) := fnames
    _ = (cable1.children.map Child.name).map reversedCapName := by
        simp [List.map_map, Function.comp_def]
    _ = (cable.children.map (fun c => reversedCapName c.name)).map reversedCapName := by
        rw [gnames]
    _ = cable.children.map (fun c => reversedCapName (reversedCapName c.name)) := by
        simp [List.map_map, Function.comp_def]

/-- Concrete cable with one Cap_Start and one Cap_End child, used by the
    C9 witness. -/
def oC9 : Obj :=
  { oC6A with
    props :=
      [("is_cable", .num 1),
       ("start_pos", .vec ⟨0, 0, 0⟩),
       ("end_pos", .vec ⟨2, 0, 0⟩),
       ("start_normal", .vec ⟨0, 0, 1⟩),
       ("end_normal", .vec ⟨0, 0, 1⟩)]
    children :=
      [{ name := capStartChars
         locationV := ⟨0, 0, 0⟩
         scaleV := ⟨1, 1, 1⟩
         rotation := ⟨⟨1, 0, 0⟩, ⟨0, 1, 0⟩, ⟨0, 0, 1⟩⟩
         is_end_cap := true },
       { name := capEndChars
         locationV := ⟨2, 0, 0⟩
         scaleV := ⟨1, 1, 1⟩
         rotation := ⟨⟨1, 0, 0⟩, ⟨0, 1, 0⟩, ⟨0, 0, 1⟩⟩
         is_end_cap := true }] }

theorem C9_reverse_involution_witness :
    (reverse_cable_execute sqW (some oC9)).status = .FINISHED ∧
    capEndChars.isPrefixOf (reversedCapName capStartChars) = true ∧
    capStartChars.isPrefixOf (reversedCapName (reversedCapName capStartChars)) = true :=
  ⟨(C9_reverse_involution sqW oC9 ⟨0, 0, 0⟩ ⟨2, 0, 0⟩ ⟨0, 0, 1⟩ ⟨0, 0, 1⟩
      rfl rfl rfl rfl rfl rfl).1,
   (C9_reverse_involution sqW oC9 ⟨0, 0, 0⟩ ⟨2, 0, 0⟩ ⟨0, 0, 1⟩ ⟨0, 0, 1⟩
      rfl rfl rfl rfl rfl rfl).2.2.1 capStartChars (by decide)⟩

/- Handler-step bookkeeping lemmas for the scene-update invariants. -/

@[simp] theorem ueco_scaleV (sq : Sqrt) (o : Obj) :
    (update_end_cap_orientations sq o).scaleV = o.scaleV := by
  unfold update_end_cap_orientations
  split
  · rfl
  · split <;> rfl

@[simp] theorem ueco_modifiers (sq : Sqrt) (o : Obj) :
    (update_end_cap_orientations sq o).modifiers = o.modifiers := by
  unfold update_end_cap_orientations
  split
  · rfl
  · split <;> rfl

@[simp] theorem uch_scaleV (sq : Sqrt) (o : Obj) :
    (update_cable_handles sq o).scaleV = o.scaleV := by
  unfold update_cable_handles
  repeat' split
  all_goals simp [ueco_scaleV]

@[simp] theorem uch_modifiers (sq : Sqrt) (o : Obj) :
    (update_cable_handles sq o).modifiers = o.modifiers := by
  unfold update_cable_handles
  repeat' split
  all_goals simp [ueco_modifiers]

theorem ueco_children_ex (sq : Sqrt) (o : Obj) :
    ∃ g : Child → Child,
      (∀ c, (g c).scaleV = c.scaleV ∧ (g c).is_end_cap = c.is_end_cap) ∧
      (update_end_cap_orientations sq o).children = o.children.map g := by
  unfold update_end_cap_orientations
  split
  · exact ⟨id, fun c => ⟨rfl, rfl⟩, by simp⟩
  · split
    · exact ⟨id, fun c => ⟨rfl, rfl⟩, by simp⟩
    · exact ⟨orientChild sq _,
        fun c => ⟨orientChild_scaleV _ _ _, orientChild_is_end_cap _ _ _⟩, rfl⟩

theorem uch_children_ex (sq : Sqrt) (o : Obj) :
    ∃ g : Child → Child,
      (∀ c, (g c).scaleV = c.scaleV ∧ (g c).is_end_cap = c.is_end_cap) ∧
      (update_cable_handles sq o).children = o.children.map g := by
  unfold update_cable_handles
  repeat' split
  all_goals try exact ueco_children_ex sq _
  all_goals exact ⟨id, fun c => ⟨rfl, rfl⟩, by simp⟩

@[simp] theorem resolutionStep_props (o : Obj) : (resolutionStep o).props = o.props := by
  unfold resolutionStep
  repeat' split
  all_goals try rfl
  all_goals (dsimp only []; split <;> rfl)

@[simp] theorem resolutionStep_children (o : Obj) :
    (resolutionStep o).children = o.children := by
  unfold resolutionStep
  repeat' split
  all_goals try rfl
  all_goals (dsimp only []; split <;> rfl)

@[simp] theorem resolutionStep_otype (o : Obj) : (resolutionStep o).otype = o.otype := by
  unfold resolutionStep
  repeat' split
  all_goals try rfl
  all_goals (dsimp only []; split <;> rfl)

@[simp] theorem resolutionStep_scaleV (o : Obj) : (resolutionStep o).scaleV = o.scaleV := by
  unfold resolutionStep
  repeat' split
  all_goals try rfl
  all_goals (dsimp only []; split <;> rfl)

@[simp] theorem resolutionStep_modifiers (o : Obj) :
    (resolutionStep o).modifiers = o.modifiers := by
  unfold resolutionStep
  repeat' split
  all_goals try rfl
  all_goals (dsimp only []; split <;> rfl)

@[simp] theorem sagStep_props (sq : Sqrt) (o : Obj) : (sagStep sq o).props = o.props := by
  unfold sagStep
  split
  · exact uch_props sq o
  · rfl

@[simp] theorem sagStep_otype (sq : Sqrt) (o : Obj) : (sagStep sq o).otype = o.otype := by
  unfold sagStep
  split
  · exact uch_otype sq o
  · rfl

@[simp] theorem sagStep_scaleV (sq : Sqrt) (o : Obj) : (sagStep sq o).scaleV = o.scaleV := by
  unfold sagStep
  split
  · exact uch_scaleV sq o
  · rfl

@[simp] theorem sagStep_modifiers (sq : Sqrt) (o : Obj) :
    (sagStep sq o).modifiers = o.modifiers := by
  unfold sagStep
  split
  · exact uch_modifiers sq o
  · rfl

theorem sagStep_children_ex (sq : Sqrt) (o : Obj) :
    ∃ g : Child → Child,
      (∀ c, (g c).scaleV = c.scaleV ∧ (g c).is_end_cap = c.is_end_cap) ∧
      (sagStep sq o).children = o.children.map g := by
  unfold sagStep
  split
  · exact uch_children_ex sq o
  · exact ⟨id, fun c => ⟨rfl, rfl⟩, by simp⟩

theorem capScaleStep_children {sq : Sqrt} {o : Obj} {t m : ℚ}
    (ht : getProp o "cable_thickness" = some (.num t))
    (hm : getProp o "end_cap_scale" = some (.num m)) :
    (capScaleStep sq o).children = o.children.map (capScaleChild sq (t * 20.0 * m)) := by
  unfold capScaleStep
  rw [if_pos ⟨by simp [hasKey, ht], by simp [hasKey, hm]⟩]
  simp [getNum, ht, hm]

theorem lenSq_sub_self (v : Vec3) : lenSq (v - v) = 0 := by
  unfold lenSq
  simp

theorem handleObj_curve {sq : Sqrt} {obj : Obj} (hty : obj.otype = .curve)
    (hic : hasKey obj "is_cable" = true) :
    handleObj sq obj = capScaleStep sq (sagStep sq (resolutionStep obj)) := by
  unfold handleObj
  rw [if_pos ⟨hty, by simp [hic]⟩]

theorem handleObj_mesh {sq : Sqrt} {obj : Obj} (hty : obj.otype = .mesh)
    (hha : hasKey obj "has_array" = true) :
    handleObj sq obj = arrayModStep (arrayScaleStep sq obj) := by
  unfold handleObj
  rw [if_neg (by simp [hty]), if_pos ⟨hty, by simp [hha]⟩]

/-- Tolerance analysis of the per-child cap-scale overwrite: afterwards an
    end cap's scale is within the 0.001 tolerance of the uniform target. -/
theorem capScaleChild_close {sq : Sqrt} {base : ℚ} {c : Child}
    (hg : GoodSqrtAt sq (lenSq (c.scaleV - ⟨base, base, base⟩))) :
    (capScaleChild sq base c).is_end_cap = true →
    lenSq ((capScaleChild sq base c).scaleV - ⟨base, base, base⟩) ≤ 0.001 ^ 2 := by
  intro hcap
  unfold capScaleChild at hcap ⊢
  by_cases hc : c.is_end_cap = true
  · rw [if_pos hc]
    by_cases hlt : 0.001 < length sq (c.scaleV - ⟨base, base, base⟩)
    · rw [if_pos hlt]
      show lenSq ((⟨base, base, base⟩ : Vec3) - ⟨base, base, base⟩) ≤ 0.001 ^ 2
      rw [lenSq_sub_self]
      norm_num
    · rw [if_neg hlt]
      push_neg at hlt
      unfold length at hlt
      nlinarith [hg.1, hg.2, hlt]
  · rw [if_neg hc] at hcap
    exact absurd hcap hc

/-- C4: after a run of the scene-update handler, on every is_cable curve
    carrying numeric cable_thickness and end_cap_scale, every end-cap
    child's scale is within the handler's 0.001 tolerance of the uniform
    target cable_thickness * 20.0 * end_cap_scale. -/
theorem C4_cap_scale_invariant (sq : Sqrt) (scene : List Obj) (i : Nat) (obj : Obj)
    (t m : ℚ)
    (hobj : scene[i]? = some obj)
    (hty : obj.otype = .curve)
    (hic : hasKey obj "is_cable" = true)
    (ht : getProp obj "cable_thickness" = some (.num t))
    (hm : getProp obj "end_cap_scale" = some (.num m))
    (hsq : ∀ c ∈ obj.children,
      GoodSqrtAt sq (lenSq (c.scaleV - ⟨t * 20.0 * m, t * 20.0 * m, t * 20.0 * m⟩))) :
    (cable_update_handler sq scene)[i]? = some (handleObj sq obj) ∧
    ∀ c' ∈ (handleObj sq obj).children, c'.is_end_cap = true →
      lenSq (c'.scaleV - ⟨t * 20.0 * m, t * 20.0 * m, t * 20.0 * m⟩) ≤ 0.001 ^ 2 := by
  constructor
  · unfold cable_update_handler
    rw [List.getElem?_map, hobj]
    rfl
  · obtain ⟨g, hgpres, hgch⟩ := sagStep_children_ex sq (resolutionStep obj)
    have hT : getProp (sagStep sq (resolutionStep obj)) "cable_thickness" =
        some (.num t) := by
      simp only [getProp, sagStep_props, resolutionStep_props]
      exact ht
    have hM : getProp (sagStep sq (resolutionStep obj)) "end_cap_scale" =
        some (.num m) := by
      simp only [getProp, sagStep_props, resolutionStep_props]
      exact hm
    have hch : (handleObj sq obj).children =
        obj.children.map (fun c => capScaleChild sq (t * 20.0 * m) (g c)) := by
      rw [handleObj_curve hty hic, capScaleStep_children hT hM, hgch,
        resolutionStep_children, List.map_map]
      rfl
    intro c' hc' hcap
    rw [hch] at hc'
    obtain ⟨c, hcmem, hceq⟩ := List.mem_map.mp hc'
    rw [← hceq] at hcap ⊢
    exact capScaleChild_close (by rw [(hgpres c).1]; exact hsq c hcmem) hcap

/-- Concrete cable for the C4 witness: one end cap whose scale is off the
    target (3,1,1) against a target of (1,1,1). -/
def oC4 : Obj :=
  { oC6A with
    props :=
      [("is_cable", .num 1),
       ("cable_thickness", .num 0.05),
       ("end_cap_scale", .num 1)]
    children :=
      [{ name := capStartChars
         locationV := ⟨0, 0, 0⟩
         scaleV := ⟨3, 1, 1⟩
         rotation := ⟨⟨1, 0, 0⟩, ⟨0, 1, 0⟩, ⟨0, 0, 1⟩⟩
         is_end_cap := true }] }

theorem C4_cap_scale_invariant_witness :
    ([oC4] : List Obj)[0]? = some oC4 ∧
    ∀ c' ∈ (handleObj sqW oC4).children, c'.is_end_cap = true →
      lenSq (c'.scaleV -
        ⟨0.05 * 20.0 * 1, 0.05 * 20.0 * 1, 0.05 * 20.0 * 1⟩) ≤ 0.001 ^ 2 :=
  ⟨rfl,
    (C4_cap_scale_invariant sqW [oC4] 0 oC4 0.05 1 rfl rfl rfl rfl rfl
      (by
        intro c hc
        simp only [oC4, List.mem_singleton] at hc
        subst hc
        constructor <;> norm_num [sqW, Vec3.lenSq])).2⟩

/- Array-branch lemmas for C5. -/

theorem pyInt_intCast (k : ℤ) : pyInt (k : ℚ) = k := by
  unfold pyInt
  split
  · exact Int.floor_intCast k
  · exact Int.ceil_intCast k

@[simp] theorem arrayScaleStep_props (sq : Sqrt) (o : Obj) :
    (arrayScaleStep sq o).props = o.props := by
  unfold arrayScaleStep
  repeat' split
  all_goals try rfl
  all_goals (dsimp only []; split <;> rfl)

@[simp] theorem arrayScaleStep_modifiers (sq : Sqrt) (o : Obj) :
    (arrayScaleStep sq o).modifiers = o.modifiers := by
  unfold arrayScaleStep
  repeat' split
  all_goals try rfl
  all_goals (dsimp only []; split <;> rfl)

@[simp] theorem arrayModStep_scaleV (o : Obj) : (arrayModStep o).scaleV = o.scaleV := rfl

@[simp] theorem arrayModStep_props (o : Obj) : (arrayModStep o).props = o.props := rfl

theorem arrayModStep_modifiers (o : Obj) :
    (arrayModStep o).modifiers = updateArrayMods o o.modifiers := rfl

/-- Tolerance analysis of the array-scale overwrite. -/
theorem arrayScaleStep_close {sq : Sqrt} {o : Obj} {s : ℚ}
    (hs : getProp o "array_scale" = some (.num s))
    (hg : GoodSqrtAt sq (lenSq (o.scaleV - ⟨s, s, s⟩))) :
    lenSq ((arrayScaleStep sq o).scaleV - ⟨s, s, s⟩) ≤ 0.001 ^ 2 := by
  have hgn : getNum o "array_scale" = some s := by simp [getNum, hs]
  unfold arrayScaleStep
  rw [if_pos (by simp [hasKey, hs])]
  simp only [hgn]
  try dsimp only []
  by_cases hlt : 0.001 < length sq (o.scaleV - ⟨s, s, s⟩)
  · rw [if_pos hlt]
    show lenSq ((⟨s, s, s⟩ : Vec3) - ⟨s, s, s⟩) ≤ 0.001 ^ 2
    rw [lenSq_sub_self]
    norm_num
  · rw [if_neg hlt]
    push_neg at hlt
    unfold length at hlt
    nlinarith [hg.1, hg.2, hlt]

/-- The handler updates exactly the first ARRAY modifier and leaves the
    rest of the stack alone. -/
theorem updateArrayMods_eq (o : Obj) (pre : List Modifier) (m : Modifier)
    (post : List Modifier)
    (hpre : ∀ m' ∈ pre, m'.mtype ≠ .ARRAY) (hm : m.mtype = .ARRAY) :
    updateArrayMods o (pre ++ m :: post) = pre ++ updateArrayMod o m :: post := by
  induction pre with
  | nil => simp [updateArrayMods, hm]
  | cons a as ih =>
    have ha : a.mtype ≠ .ARRAY := hpre a (by simp)
    simp only [List.cons_append, updateArrayMods, if_neg ha, List.append_eq]
    rw [ih (fun m' hm' => hpre m' (by simp [hm']))]

/-- Behaviour of the single-modifier update under integer metadata. -/
theorem updateArrayMod_spec (o : Obj) (m : Modifier) {f cnt : ℚ} {kf kc : ℤ}
    (hf : getProp o "array_fit_curve" = some (.num f))
    (hcnt : getProp o "array_count" = some (.num cnt))
    (hkf : f = (kf : ℚ)) (hkc : cnt = (kc : ℚ)) :
    (kf ≠ 0 → updateArrayMod o m = { m with fit_type := .FIT_CURVE }) ∧
    (kf = 0 → updateArrayMod o m = { m with fit_type := .FIXED_COUNT, count := kc }) := by
  have hgf : getNum o "array_fit_curve" = some f := by simp [getNum, hf]
  have hgc : getNum o "array_count" = some cnt := by simp [getNum, hcnt]
  unfold updateArrayMod
  rw [if_pos (by simp [hasKey, hf])]
  simp only [hgf]
  try dsimp only []
  rw [hkf, pyInt_intCast]
  constructor
  · intro hk
    rw [if_pos hk]
  · intro hk
    subst hk
    rw [if_neg (by simp)]
    rw [if_pos (by simp [hasKey, hcnt])]
    simp only [hgc]
    try dsimp only []
    rw [hkc, pyInt_intCast]

/-- C5: after a run of the scene-update handler, on every has_array mesh
    with integer array_fit_curve / array_count metadata and numeric
    array_scale, the first ARRAY modifier's fit type is FIT_CURVE exactly
    when array_fit_curve is nonzero and FIXED_COUNT otherwise; in the
    FIXED_COUNT case its count equals array_count; and the object's scale
    is within the 0.001 tolerance of the uniform array_scale. -/
theorem C5_array_mirror (sq : Sqrt) (scene : List Obj) (i : Nat) (obj : Obj)
    (s f cnt : ℚ) (kf kc : ℤ) (pre post : List Modifier) (m : Modifier)
    (hobj : scene[i]? = some obj)
    (hty : obj.otype = .mesh)
    (hha : hasKey obj "has_array" = true)
    (hs : getProp obj "array_scale" = some (.num s))
    (hf : getProp obj "array_fit_curve" = some (.num f))
    (hcnt : getProp obj "array_count" = some (.num cnt))
    (hkf : f = (kf : ℚ)) (hkc : cnt = (kc : ℚ))
    (hmods : obj.modifiers = pre ++ m :: post)
    (hpre : ∀ m' ∈ pre, m'.mtype ≠ .ARRAY)
    (hmarr : m.mtype = .ARRAY)
    (hg : GoodSqrtAt sq (lenSq (obj.scaleV - ⟨s, s, s⟩))) :
    (cable_update_handler sq scene)[i]? = some (handleObj sq obj) ∧
    ∃ m' : Modifier,
      (handleObj sq obj).modifiers = pre ++ m' :: post ∧
      (m'.fit_type = .FIT_CURVE ↔ f ≠ 0) ∧
      (f = 0 → m'.fit_type = .FIXED_COUNT ∧ m'.count = kc) ∧
      lenSq ((handleObj sq obj).scaleV - ⟨s, s, s⟩) ≤ 0.001 ^ 2 := by
  have hf2 : getProp (arrayScaleStep sq obj) "array_fit_curve" = some (.num f) := by
    simp only [getProp, arrayScaleStep_props]
    exact hf
  have hcnt2 : getProp (arrayScaleStep sq obj) "array_count" = some (.num cnt) := by
    simp only [getProp, arrayScaleStep_props]
    exact hcnt
  obtain ⟨hspec1, hspec2⟩ :=
    updateArrayMod_spec (arrayScaleStep sq obj) m hf2 hcnt2 hkf hkc
  have hfz : f = 0 ↔ kf = 0 := by
    rw [hkf]
    exact_mod_cast Int.cast_eq_zero
  constructor
  · unfold cable_update_handler
    rw [List.getElem?_map, hobj]
    rfl
  · refine ⟨updateArrayMod (arrayScaleStep sq obj) m, ?_, ?_, ?_, ?_⟩
    · rw [handleObj_mesh hty hha, arrayModStep_modifiers,
        arrayScaleStep_modifiers, hmods]
      exact updateArrayMods_eq _ pre m post hpre hmarr
    · by_cases hk : kf = 0
      · rw [hspec2 hk]
        simp [hfz, hk]
      · rw [hspec1 hk]
        simp [hfz, hk]
    · intro hf0
      rw [hspec2 (hfz.mp hf0)]
      exact ⟨rfl, rfl⟩
    · rw [handleObj_mesh hty hha, arrayModStep_scaleV]
      exact arrayScaleStep_close hs hg

/-- Concrete array-decorator mesh for the C5 witness: fixed-count mode,
    count 7, scale target 2 against a current scale of (4,2,2). -/
def oC5 : Obj :=
  { oC6A with
    otype := .mesh
    props :=
      [("has_array", .num 1),
       ("array_scale", .num 2),
       ("array_fit_curve", .num 0),
       ("array_count", .num 7)]
    scaleV := ⟨4, 2, 2⟩
    children := []
    modifiers :=
      [{ mtype := .CURVE, fit_type := .FIT_CURVE, count := 10 },
       { mtype := .ARRAY, fit_type := .FIT_CURVE, count := 10 }] }

theorem C5_array_mirror_witness :
    ([oC5] : List Obj)[0]? = some oC5 ∧
    ∃ m' : Modifier,
      (handleObj sqW oC5).modifiers =
        [{ mtype := .CURVE, fit_type := .FIT_CURVE, count := 10 }] ++ m' :: [] ∧
      (m'.fit_type = .FIT_CURVE ↔ (0 : ℚ) ≠ 0) ∧
      ((0 : ℚ) = 0 → m'.fit_type = .FIXED_COUNT ∧ m'.count = 7) ∧
      lenSq ((handleObj sqW oC5).scaleV - ⟨2, 2, 2⟩) ≤ 0.001 ^ 2 :=
  ⟨rfl,
    (C5_array_mirror sqW [oC5] 0 oC5 2 0 7 0 7
      [{ mtype := .CURVE, fit_type := .FIT_CURVE, count := 10 }] []
      { mtype := .ARRAY, fit_type := .FIT_CURVE, count := 10 }
      rfl rfl rfl rfl rfl rfl (by norm_num) (by norm_num) rfl
      (by
        intro m' hm'
        simp only [List.mem_singleton] at hm'
        subst hm'
        simp)
      rfl
      ⟨by norm_num [oC5, oC6A, sqW, Vec3.lenSq], by norm_num [oC5, oC6A, sqW, Vec3.lenSq]⟩).2⟩

theorem C6_cap_orientation_amended_witness :
    oC6A.splines =
      { bezier_points :=
          [{ co := ⟨0, 0, 0⟩, handle_left := ⟨0, 0, 0⟩, handle_right := ⟨1, 0, 0⟩ },
           { co := ⟨2, 0, 0⟩, handle_left := ⟨1, 0, 0⟩, handle_right := ⟨0, 0, 0⟩ }] } :: [] ∧
    (update_end_cap_orientations sqW oC6A).children =
      oC6A.children.map (orientChild sqW
        { bezier_points :=
            [{ co := ⟨0, 0, 0⟩, handle_left := ⟨0, 0, 0⟩, handle_right := ⟨1, 0, 0⟩ },
             { co := ⟨2, 0, 0⟩, handle_left := ⟨1, 0, 0⟩, handle_right := ⟨0, 0, 0⟩ }] }) :=
  ⟨rfl,
    (C6_cap_orientation_amended sqW oC6A _ [] _ _ [] rfl rfl).1⟩

/-- C3: the Generate Cable operator reports a user-facing warning and
    returns CANCELLED exactly when the selection is insufficient (no
    selection; in the edit path fewer than 2 selected faces; in the
    object path fewer than 2 selected mesh objects), and a CANCELLED run
    creates no cables. -/
theorem C3_generate_cancel_conditions (sq : Sqrt) (gp : GenProps) (sel : List Obj) :
    ((generate_cable_execute sq gp sel).status = .CANCELLED ↔
      (sel = [] ∨
       (¬ (sel.filter fun obj => obj.otype = .mesh ∧ obj.mode = .EDIT) = [] ∧
         (get_selected_faces sel).length < 2) ∨
       ((sel.filter fun obj => obj.otype = .mesh ∧ obj.mode = .EDIT) = [] ∧
         (get_object_centers sel).length < 2))) ∧
    ((∃ msg, (ReportLevel.WARNING, msg) ∈ (generate_cable_execute sq gp sel).reports) ↔
      (generate_cable_execute sq gp sel).status = .CANCELLED) ∧
    ((generate_cable_execute sq gp sel).status = .CANCELLED →
      (generate_cable_execute sq gp sel).cables = []) := by
  unfold generate_cable_execute
  by_cases h0 : sel = []
  · rw [if_pos (by simp [h0])]
    simp [h0]
  · rw [if_neg (by simp [h0])]
    by_cases h1 : (sel.filter fun obj => obj.otype = .mesh ∧ obj.mode = .EDIT) = []
    · have h1' : ∀ x ∈ sel, x.otype = .mesh → ¬ x.mode = .EDIT := by simpa using h1
      rw [if_neg (by simpa using h1)]
      by_cases h2 : (get_object_centers sel).length < 2
      · rw [if_pos h2]
        refine ⟨⟨fun _ => Or.inr (Or.inr ⟨h1, h2⟩), fun _ => rfl⟩, by simp, by simp⟩
      · rw [if_neg h2]
        rcases hmode : gp.connection_mode with _ | _
        · simp [h0, h2, h1']
          intro x hx hm he
          exact absurd he (h1' x hx hm)
        · rcases hcd : get_object_centers sel with _ | ⟨first, rest⟩
          · rw [hcd] at h2
            simp at h2
          · have h2' : 1 ≤ rest.length := by
              rw [hcd] at h2
              simp at h2
              omega
            simp [h0, h2, h1', hcd, h2']
            intro x hx hm he
            exact absurd he (h1' x hx hm)
    · have h1' : ∃ x ∈ sel, x.otype = .mesh ∧ x.mode = .EDIT := by simpa using h1
      rw [if_pos (by simpa using h1)]
      by_cases h2 : (get_selected_faces sel).length < 2
      · rw [if_pos h2]
        simp [h0, h1', h2]
      · rw [if_neg h2]
        simp [h0, h1', h2]

/-- Panel settings used by the operator witnesses. -/
def gpW : GenProps :=
  { thickness := 0.05
    resolution := 12
    connection_mode := .SEQUENTIAL
    add_end_caps := false
    end_cap_type := .CYLINDER
    end_cap_mesh := false
    organize_collections := true
    array_scale := 1
    array_mesh := false }

theorem C3_generate_cancel_conditions_witness :
    (generate_cable_execute sqW gpW []).status = .CANCELLED ∧
    (generate_cable_execute sqW gpW []).cables = [] :=
  ⟨rfl, (C3_generate_cancel_conditions sqW gpW []).2.2 rfl⟩

/- Lemmas for the cable-generation counting claim. -/

theorem create_curve_lookup_start_pos (sq : Sqrt) (sp ns ep ne : Vec3) (nm : String) :
    lookupProp (create_curve_between_points sq sp ns ep ne nm).props "start_pos" =
      some (.vec sp) := by
  unfold create_curve_between_points setup_cable_drivers
  simp only [uch_props]
  rfl

theorem create_curve_lookup_end_pos (sq : Sqrt) (sp ns ep ne : Vec3) (nm : String) :
    lookupProp (create_curve_between_points sq sp ns ep ne nm).props "end_pos" =
      some (.vec ep) := by
  unfold create_curve_between_points setup_cable_drivers
  simp only [uch_props]
  rfl

theorem create_curve_lookup_start_normal (sq : Sqrt) (sp ns ep ne : Vec3) (nm : String) :
    lookupProp (create_curve_between_points sq sp ns ep ne nm).props "start_normal" =
      some (.vec (fixNormal sq ns)) := by
  unfold create_curve_between_points setup_cable_drivers
  simp only [uch_props]
  rfl

theorem create_curve_lookup_end_normal (sq : Sqrt) (sp ns ep ne : Vec3) (nm : String) :
    lookupProp (create_curve_between_points sq sp ns ep ne nm).props "end_normal" =
      some (.vec (fixNormal sq ne)) := by
  unfold create_curve_between_points setup_cable_drivers
  simp only [uch_props]
  rfl

/-- The endpoint metadata of a cable produced by one generation-loop
    iteration: start/end positions are the two items' centers and the
    stored normals their fixed-up normals, whatever the cap settings. -/
theorem mkGenCable_metadata (sq : Sqrt) (gp : GenProps) (it1 it2 : Item)
    (cname : String) (sname ename : List Char) :
    getVec (mkGenCable sq gp it1 it2 cname sname ename) "start_pos" = some it1.center ∧
    getVec (mkGenCable sq gp it1 it2 cname sname ename) "end_pos" = some it2.center ∧
    getVec (mkGenCable sq gp it1 it2 cname sname ename) "start_normal" =
      some (fixNormal sq it1.normal) ∧
    getVec (mkGenCable sq gp it1 it2 cname sname ename) "end_normal" =
      some (fixNormal sq it2.normal) := by
  refine ⟨?_, ?_, ?_, ?_⟩ <;>
    (unfold mkGenCable
     repeat' split
     all_goals
       (simp only [getVec, getProp]
        repeat' rw [lookup_setProp_ne _ _ _ _ (by decide)]
        first
          | rw [create_curve_lookup_start_pos]
          | rw [create_curve_lookup_end_pos]
          | rw [create_curve_lookup_start_normal]
          | rw [create_curve_lookup_end_normal]))

theorem buildSeq_length (sq : Sqrt) (gp : GenProps) :
    ∀ (i : Nat) (items : List Item),
      (buildSeq sq gp i items).length = items.length - 1
  | _, [] => rfl
  | _, [_] => rfl
  | i, a :: b :: rest => by
    simp only [buildSeq, List.length_cons]
    rw [buildSeq_length sq gp (i + 1) (b :: rest)]
    simp

theorem buildSeq_get (sq : Sqrt) (gp : GenProps) :
    ∀ (i k : Nat) (items : List Item), k + 1 < items.length →
      ∃ it1 it2 cname sname ename,
        items[k]? = some it1 ∧ items[k + 1]? = some it2 ∧
        (buildSeq sq gp i items)[k]? =
          some (mkGenCable sq gp it1 it2 cname sname ename)
  | _, _, [], h => by simp at h
  | _, _, [_], h => by simp at h
  | i, 0, a :: b :: rest, _ =>
    ⟨a, b, "Cable_" ++ toString (i + 1), ("Cap_Start_" ++ toString (i + 1)).toList,
     ("Cap_End_" ++ toString (i + 1)).toList, rfl, by simp, by simp [buildSeq]⟩
  | i, k + 1, a :: b :: rest, h => by
    obtain ⟨it1, it2, cn, sn, en, ha, hb, hc⟩ :=
      buildSeq_get sq gp (i + 1) k (b :: rest) (by simp at h ⊢; omega)
    refine ⟨it1, it2, cn, sn, en, ?_, ?_, ?_⟩
    · simpa using ha
    · simpa using hb
    · show (buildSeq sq gp i (a :: b :: rest))[k + 1]? = _
      simp only [buildSeq]
      simpa using hc

theorem execute_edit_path {sq : Sqrt} {gp : GenProps} {sel : List Obj}
    (h0 : sel ≠ [])
    (h1 : (sel.filter fun obj => obj.otype = .mesh ∧ obj.mode = .EDIT) ≠ [])
    (h2 : ¬ (get_selected_faces sel).length < 2) :
    generate_cable_execute sq gp sel =
      ⟨.FINISHED, buildSeq sq gp 0 (get_selected_faces sel),
       [(.INFO, toString (buildSeq sq gp 0 (get_selected_faces sel)).length ++
          " cable(s) generated successfully")]⟩ := by
  unfold generate_cable_execute
  rw [if_neg (by simp [h0]), if_pos (by simpa using h1), if_neg h2]

theorem execute_seq_path {sq : Sqrt} {gp : GenProps} {sel : List Obj}
    (h0 : sel ≠ [])
    (h1 : (sel.filter fun obj => obj.otype = .mesh ∧ obj.mode = .EDIT) = [])
    (hmode : gp.connection_mode = .SEQUENTIAL)
    (h2 : ¬ (get_object_centers sel).length < 2) :
    generate_cable_execute sq gp sel =
      ⟨.FINISHED, buildSeq sq gp 0 (get_object_centers sel),
       [(.INFO, toString (buildSeq sq gp 0 (get_object_centers sel)).length ++
          " cable(s) generated successfully")]⟩ := by
  unfold generate_cable_execute
  rw [if_neg (by simp [h0]), if_neg (by simpa using h1), if_neg h2]
  simp only [hmode]

theorem execute_all_path {sq : Sqrt} {gp : GenProps} {sel : List Obj}
    {first : Item} {rest : List Item}
    (h0 : sel ≠ [])
    (h1 : (sel.filter fun obj => obj.otype = .mesh ∧ obj.mode = .EDIT) = [])
    (hmode : gp.connection_mode = .ALL_TO_FIRST)
    (hcd : get_object_centers sel = first :: rest)
    (h2 : ¬ (get_object_centers sel).length < 2) :
    generate_cable_execute sq gp sel =
      ⟨.FINISHED, buildAllToFirst sq gp first rest,
       [(.INFO, toString (buildAllToFirst sq gp first rest).length ++
          " cable(s) generated successfully")]⟩ := by
  unfold generate_cable_execute
  rw [if_neg (by simp [h0]), if_neg (by simpa using h1), if_neg h2]
  simp only [hmode, hcd]

/-- C2: a successful Generate Cable run creates exactly N-1 cables — the
    k-th connecting the k-th item's center (with its stored normal) to
    the (k+1)-th — in the edit-mode faces path and the SEQUENTIAL object
    path; in the ALL_TO_FIRST path it creates N-1 cables from the first
    object's center to each remaining object's center. -/
theorem C2_generate_cable_counts (sq : Sqrt) (gp : GenProps) (sel : List Obj) :
    (sel ≠ [] →
      (sel.filter fun obj => obj.otype = .mesh ∧ obj.mode = .EDIT) ≠ [] →
      2 ≤ (get_selected_faces sel).length →
      (generate_cable_execute sq gp sel).status = .FINISHED ∧
      (generate_cable_execute sq gp sel).cables.length =
        (get_selected_faces sel).length - 1 ∧
      (∀ k, k + 1 < (get_selected_faces sel).length →
        ∃ c it1 it2,
          (generate_cable_execute sq gp sel).cables[k]? = some c ∧
          (get_selected_faces sel)[k]? = some it1 ∧
          (get_selected_faces sel)[k + 1]? = some it2 ∧
          getVec c "start_pos" = some it1.center ∧
          getVec c "end_pos" = some it2.center ∧
          getVec c "start_normal" = some (fixNormal sq it1.normal) ∧
          getVec c "end_normal" = some (fixNormal sq it2.normal))) ∧
    (sel ≠ [] →
      (sel.filter fun obj => obj.otype = .mesh ∧ obj.mode = .EDIT) = [] →
      gp.connection_mode = .SEQUENTIAL →
      2 ≤ (get_object_centers sel).length →
      (generate_cable_execute sq gp sel).status = .FINISHED ∧
      (generate_cable_execute sq gp sel).cables.length =
        (get_object_centers sel).length - 1 ∧
      (∀ k, k + 1 < (get_object_centers sel).length →
        ∃ c it1 it2,
          (generate_cable_execute sq gp sel).cables[k]? = some c ∧
          (get_object_centers sel)[k]? = some it1 ∧
          (get_object_centers sel)[k + 1]? = some it2 ∧
          getVec c "start_pos" = some it1.center ∧
          getVec c "end_pos" = some it2.center ∧
          getVec c "start_normal" = some (fixNormal sq it1.normal) ∧
          getVec c "end_normal" = some (fixNormal sq it2.normal))) ∧
    (∀ first rest, sel ≠ [] →
      (sel.filter fun obj => obj.otype = .mesh ∧ obj.mode = .EDIT) = [] →
      gp.connection_mode = .ALL_TO_FIRST →
      get_object_centers sel = first :: rest →
      2 ≤ (get_object_centers sel).length →
      (generate_cable_execute sq gp sel).status = .FINISHED ∧
      (generate_cable_execute sq gp sel).cables.length =
        (get_object_centers sel).length - 1 ∧
      (∀ k, k < rest.length →
        ∃ c it2,
          (generate_cable_execute sq gp sel).cables[k]? = some c ∧
          rest[k]? = some it2 ∧
          getVec c "start_pos" = some first.center ∧
          getVec c "end_pos" = some it2.center ∧
          getVec c "start_normal" = some (fixNormal sq first.normal) ∧
          getVec c "end_normal" = some (fixNormal sq it2.normal))) := by
  refine ⟨?_, ?_, ?_⟩
  · intro h0 h1 h2
    rw [execute_edit_path h0 h1 (by omega)]
    refine ⟨rfl, buildSeq_length sq gp 0 _, ?_⟩
    intro k hk
    obtain ⟨it1, it2, cn, sn, en, ha, hb, hc⟩ := buildSeq_get sq gp 0 k _ hk
    obtain ⟨m1, m2, m3, m4⟩ := mkGenCable_metadata sq gp it1 it2 cn sn en
    exact ⟨_, it1, it2, hc, ha, hb, m1, m2, m3, m4⟩
  · intro h0 h1 hmode h2
    rw [execute_seq_path h0 h1 hmode (by omega)]
    refine ⟨rfl, buildSeq_length sq gp 0 _, ?_⟩
    intro k hk
    obtain ⟨it1, it2, cn, sn, en, ha, hb, hc⟩ := buildSeq_get sq gp 0 k _ hk
    obtain ⟨m1, m2, m3, m4⟩ := mkGenCable_metadata sq gp it1 it2 cn sn en
    exact ⟨_, it1, it2, hc, ha, hb, m1, m2, m3, m4⟩
  · intro first rest h0 h1 hmode hcd h2
    rw [execute_all_path h0 h1 hmode hcd (by omega)]
    refine ⟨rfl, ?_, ?_⟩
    · show (rest.map _).length = (get_object_centers sel).length - 1
      rw [List.length_map, hcd]
      simp
    · intro k hk
      have hr : rest[k]? = some (rest.get ⟨k, hk⟩) := List.getElem?_eq_getElem hk
      obtain ⟨m1, m2, m3, m4⟩ :=
        mkGenCable_metadata sq gp first (rest.get ⟨k, hk⟩)
          ("Cable_to_" ++ (rest.get ⟨k, hk⟩).objName)
          ("Cap_Start_to_" ++ (rest.get ⟨k, hk⟩).objName).toList
          ("Cap_End_to_" ++ (rest.get ⟨k, hk⟩).objName).toList
      refine ⟨_, rest.get ⟨k, hk⟩, ?_, hr, m1, m2, m3, m4⟩
      show (rest.map _)[k]? = _
      rw [List.getElem?_map, hr]
      rfl

/-- A plain mesh object in object mode, for the generation witnesses. -/
def meshObjW (nm : String) (loc : Vec3) : Obj :=
  { name := nm
    otype := .mesh
    mode := .OBJECT
    props := []
    splines := []
    resolution_u := 12
    bevel_depth := 0
    bevel_driver := false
    locationV := loc
    scaleV := ⟨1, 1, 1⟩
    children := []
    modifiers := []
    faces := [] }

/-- Two selected mesh objects, the C2 witness selection. -/
def selC2 : List Obj := [meshObjW "A" ⟨0, 0, 0⟩, meshObjW "B" ⟨2, 0, 0⟩]

theorem C2_generate_cable_counts_witness :
    (generate_cable_execute sqW gpW selC2).status = .FINISHED ∧
    (generate_cable_execute sqW gpW selC2).cables.length =
      (get_object_centers selC2).length - 1 :=
  ⟨((C2_generate_cable_counts sqW gpW selC2).2.1 (by simp [selC2]) rfl rfl
      (by decide)).1,
   ((C2_generate_cable_counts sqW gpW selC2).2.1 (by simp [selC2]) rfl rfl
      (by decide)).2.1⟩

/- Toggle End Caps lemmas for C7. -/

theorem truthy_of_num {o : Obj} {k : String} {v : ℚ}
    (h : getProp o k = some (.num v)) (hv : v ≠ 0) : truthyProp o k = true := by
  simp [truthyProp, h, hv]

theorem not_truthy_of_zero {o : Obj} {k : String}
    (h : getProp o k = some (.num 0)) : truthyProp o k = false := by
  simp [truthyProp, h]

/-- One successful toggle on a cable whose has_end_caps is truthy: every
    end-cap child is removed and the flag is set to 0. -/
theorem toggle_off_run (sq : Sqrt) (gp : GenProps) (cable : Obj)
    (hty : cable.otype = .curve)
    (hic : hasKey cable "is_cable" = true)
    (hcaps : truthyProp cable "has_end_caps" = true) :
    toggle_end_caps_execute sq gp (some cable) =
      ⟨.FINISHED, some { cable with
        children := cable.children.filter fun child => ¬ child.is_end_cap
        props := setProp cable.props "has_end_caps" (.num 0) }⟩ := by
  simp only [toggle_end_caps_execute]
  rw [if_neg (not_not_intro ⟨hty, by simp [hic]⟩), if_pos (by simp [hcaps])]

/-- One successful toggle on a cable with falsy has_end_caps and complete
    position metadata: the flag is set to 1 and no other key changes. -/
theorem toggle_on_run (sq : Sqrt) (gp : GenProps) (cable : Obj) (sp ep sn en : Vec3)
    (hty : cable.otype = .curve)
    (hic : hasKey cable "is_cable" = true)
    (hcaps : truthyProp cable "has_end_caps" = false)
    (h1 : getProp cable "start_pos" = some (.vec sp))
    (h2 : getProp cable "end_pos" = some (.vec ep))
    (h3 : getProp cable "start_normal" = some (.vec sn))
    (h4 : getProp cable "end_normal" = some (.vec en)) :
    (toggle_end_caps_execute sq gp (some cable)).status = .FINISHED ∧
    (∃ cable1, (toggle_end_caps_execute sq gp (some cable)).obj = some cable1) ∧
    ∀ cable1, (toggle_end_caps_execute sq gp (some cable)).obj = some cable1 →
      getProp cable1 "has_end_caps" = some (.num 1) ∧
      cable1.otype = cable.otype ∧
      (∀ k, k ≠ "has_end_caps" → getProp cable1 k = getProp cable k) := by
  simp only [toggle_end_caps_execute]
  rw [if_neg (not_not_intro ⟨hty, by simp [hic]⟩), if_neg (by simp [hcaps]),
    if_neg (not_not_intro ⟨by simp [hasKey, h1], by simp [hasKey, h2]⟩)]
  simp only [getVec, h1, h2, h3, h4]
  rcases hsc : create_end_cap sq sp sn gp.end_cap_type gp.end_cap_mesh
      (getNumD cable "cable_thickness" 0.05 * 20.0 * getNumD cable "end_cap_scale" 1)
      ("Cap_Start_" ++ cable.name).toList with _ | cap1 <;>
    rcases hec : create_end_cap sq ep en gp.end_cap_type gp.end_cap_mesh
        (getNumD cable "cable_thickness" 0.05 * 20.0 * getNumD cable "end_cap_scale" 1)
        ("Cap_End_" ++ cable.name).toList with _ | cap2 <;>
    simp only [hsc, hec] <;>
    (refine ⟨by trivial, ⟨_, rfl⟩, ?_⟩
     intro cable1 hc1
     replace hc1 := Option.some.inj hc1
     subst hc1
     refine ⟨?_, by simp [ueco_otype], ?_⟩
     · simp only [getProp, ueco_props]
       exact lookup_setProp_self _ _ _
     · intro k hk
       simp only [getProp, ueco_props]
       exact lookup_setProp_ne _ _ _ _ hk)

/-- Concrete cable with has_end_caps = 2 (truthy but not 1), used by the
    C7 counterexample. -/
def oC7 : Obj :=
  { meshObjW "Cable_X" ⟨0, 0, 0⟩ with
    otype := .curve
    props :=
      [("is_cable", .num 1),
       ("has_end_caps", .num 2),
       ("start_pos", .vec ⟨0, 0, 0⟩),
       ("end_pos", .vec ⟨2, 0, 0⟩),
       ("start_normal", .vec ⟨0, 0, 1⟩),
       ("end_normal", .vec ⟨0, 0, 1⟩)] }

/-- Result of toggling oC7 once: caps removed, flag 0. -/
def oC7off : Obj :=
  { oC7 with
    children := oC7.children.filter fun child => ¬ child.is_end_cap
    props := setProp oC7.props "has_end_caps" (.num 0) }

/-- C7 counterexample: starting from has_end_caps = 2 (nonzero), two
    successive successful toggles end at has_end_caps = 1, not at the
    original value 2, so two toggles do not always restore the original
    value. -/
theorem C7_toggle_counterexample :
    getProp oC7 "has_end_caps" = some (.num 2) ∧
    toggle_end_caps_execute sqW gpW (some oC7) = ⟨.FINISHED, some oC7off⟩ ∧
    (toggle_end_caps_execute sqW gpW (some oC7off)).status = .FINISHED ∧
    ((toggle_end_caps_execute sqW gpW (some oC7off)).obj.map
      (fun c => getProp c "has_end_caps")) = some (some (.num 1)) ∧
    (PVal.num 1 : PVal) ≠ .num 2 := by
  have hoff := toggle_off_run sqW gpW oC7 rfl rfl
    (truthy_of_num (v := 2) rfl (by norm_num))
  have h0 : getProp oC7off "has_end_caps" = some (.num 0) := by
    simp only [oC7off, getProp]
    exact lookup_setProp_self _ _ _
  have hkeys : ∀ k, k ≠ "has_end_caps" → getProp oC7off k = getProp oC7 k := by
    intro k hk
    simp only [oC7off, getProp]
    exact lookup_setProp_ne _ _ _ _ hk
  obtain ⟨hst, ⟨c1, hc1⟩, hrun⟩ := toggle_on_run sqW gpW oC7off
    ⟨0, 0, 0⟩ ⟨2, 0, 0⟩ ⟨0, 0, 1⟩ ⟨0, 0, 1⟩
    rfl
    (hasKey_of_getProp (v := .num 1) (by rw [hkeys _ (by decide)]; rfl))
    (not_truthy_of_zero h0)
    (by rw [hkeys _ (by decide)]; rfl)
    (by rw [hkeys _ (by decide)]; rfl)
    (by rw [hkeys _ (by decide)]; rfl)
    (by rw [hkeys _ (by decide)]; rfl)
  refine ⟨rfl, hoff, hst, ?_, by simp⟩
  rw [hc1]
  simp only [Option.map]
  rw [(hrun c1 hc1).1]

/-- C7 amended: a successful toggle on a truthy-has_end_caps cable
    removes every end-cap child and sets the flag to 0; a successful
    toggle on a falsy-flag cable with position metadata sets it to 1; two
    successive successful toggles restore has_end_caps whenever its
    original value is 0 or 1 (for other nonzero values the pair of runs
    ends at 1, preserving only truthiness). -/
theorem C7_toggle_amended (sq : Sqrt) (gp : GenProps) (cable : Obj)
    (hty : cable.otype = .curve)
    (hic : hasKey cable "is_cable" = true) :
    (∀ v : ℚ, getProp cable "has_end_caps" = some (.num v) → v ≠ 0 →
      toggle_end_caps_execute sq gp (some cable) =
        ⟨.FINISHED, some { cable with
          children := cable.children.filter fun child => ¬ child.is_end_cap
          props := setProp cable.props "has_end_caps" (.num 0) }⟩) ∧
    (∀ sp ep sn en : Vec3, truthyProp cable "has_end_caps" = false →
      getProp cable "start_pos" = some (.vec sp) →
      getProp cable "end_pos" = some (.vec ep) →
      getProp cable "start_normal" = some (.vec sn) →
      getProp cable "end_normal" = some (.vec en) →
      (toggle_end_caps_execute sq gp (some cable)).status = .FINISHED ∧
      ∀ cable1, (toggle_end_caps_execute sq gp (some cable)).obj = some cable1 →
        getProp cable1 "has_end_caps" = some (.num 1)) ∧
    (∀ (v : ℚ) (sp ep sn en : Vec3),
      getProp cable "has_end_caps" = some (.num v) → (v = 0 ∨ v = 1) →
      getProp cable "start_pos" = some (.vec sp) →
      getProp cable "end_pos" = some (.vec ep) →
      getProp cable "start_normal" = some (.vec sn) →
      getProp cable "end_normal" = some (.vec en) →
      (toggle_end_caps_execute sq gp (some cable)).status = .FINISHED ∧
      ∀ cable1, (toggle_end_caps_execute sq gp (some cable)).obj = some cable1 →
        (toggle_end_caps_execute sq gp (some cable1)).status = .FINISHED ∧
        ∀ cable2, (toggle_end_caps_execute sq gp (some cable1)).obj = some cable2 →
          getProp cable2 "has_end_caps" = some (.num v)) := by
  refine ⟨?_, ?_, ?_⟩
  · intro v hv hv0
    exact toggle_off_run sq gp cable hty hic (truthy_of_num hv hv0)
  · intro sp ep sn en hcaps h1 h2 h3 h4
    obtain ⟨hst, _, hrun⟩ := toggle_on_run sq gp cable sp ep sn en hty hic hcaps h1 h2 h3 h4
    exact ⟨hst, fun cable1 hc1 => (hrun cable1 hc1).1⟩
  · intro v sp ep sn en hv hv01 h1 h2 h3 h4
    obtain ⟨iv, hvic⟩ := Option.isSome_iff_exists.mp (by simpa [hasKey] using hic)
    rcases hv01 with hv0 | hv1
    · subst hv0
      obtain ⟨hst, _, hrun⟩ := toggle_on_run sq gp cable sp ep sn en hty hic
        (not_truthy_of_zero hv) h1 h2 h3 h4
      refine ⟨hst, ?_⟩
      intro cable1 hc1
      obtain ⟨hhas1, hoty1, hother1⟩ := hrun cable1 hc1
      have hrun2 := toggle_off_run sq gp cable1 (by rw [hoty1, hty])
        (hasKey_of_getProp (by rw [hother1 "is_cable" (by decide)]; exact hvic))
        (truthy_of_num hhas1 (by norm_num))
      refine ⟨by rw [hrun2], ?_⟩
      intro cable2 hc2
      rw [hrun2] at hc2
      replace hc2 := Option.some.inj hc2
      subst hc2
      simp only [getProp]
      exact lookup_setProp_self _ _ _
    · subst hv1
      have hrun1 := toggle_off_run sq gp cable hty hic (truthy_of_num hv (by norm_num))
      refine ⟨by rw [hrun1], ?_⟩
      intro cable1 hc1
      rw [hrun1] at hc1
      replace hc1 := Option.some.inj hc1
      subst hc1
      have h0 : getProp { cable with
          children := cable.children.filter fun child => ¬ child.is_end_cap
          props := setProp cable.props "has_end_caps" (.num 0) } "has_end_caps" =
          some (.num 0) := by
        simp only [getProp]
        exact lookup_setProp_self _ _ _
      have hkeys : ∀ k, k ≠ "has_end_caps" →
          getProp { cable with
            children := cable.children.filter fun child => ¬ child.is_end_cap
            props := setProp cable.props "has_end_caps" (.num 0) } k =
          getProp cable k := by
        intro k hk
        simp only [getProp]
        exact lookup_setProp_ne _ _ _ _ hk
      obtain ⟨hst2, _, hrun2⟩ := toggle_on_run sq gp
        { cable with
          children := cable.children.filter fun child => ¬ child.is_end_cap
          props := setProp cable.props "has_end_caps" (.num 0) }
        sp ep sn en hty
        (hasKey_of_getProp (by rw [hkeys _ (by decide)]; exact hvic))
        (not_truthy_of_zero h0)
        (by rw [hkeys _ (by decide)]; exact h1)
        (by rw [hkeys _ (by decide)]; exact h2)
        (by rw [hkeys _ (by decide)]; exact h3)
        (by rw [hkeys _ (by decide)]; exact h4)
      exact ⟨hst2, fun cable2 hc2 => (hrun2 cable2 hc2).1⟩

/-- Concrete cable with has_end_caps = 0, for the C7 witness. -/
def oC7b : Obj :=
  { oC7 with props := setProp oC7.props "has_end_caps" (.num 0) }

theorem C7_toggle_amended_witness :
    getProp oC7b "has_end_caps" = some (.num 0) ∧
    ((toggle_end_caps_execute sqW gpW (some oC7b)).status = .FINISHED ∧
     ∀ cable1, (toggle_end_caps_execute sqW gpW (some oC7b)).obj = some cable1 →
       (toggle_end_caps_execute sqW gpW (some cable1)).status = .FINISHED ∧
       ∀ cable2, (toggle_end_caps_execute sqW gpW (some cable1)).obj = some cable2 →
         getProp cable2 "has_end_caps" = some (.num 0)) :=
  ⟨rfl,
    (C7_toggle_amended sqW gpW oC7b rfl rfl).2.2 0
      ⟨0, 0, 0⟩ ⟨2, 0, 0⟩ ⟨0, 0, 1⟩ ⟨0, 0, 1⟩ rfl
      (Or.inl rfl) rfl rfl rfl rfl⟩

/- Congruence and stability lemmas for the handler-idempotence claim. -/

theorem getProp_congr {X o : Obj} (h : X.props = o.props) (k : String) :
    getProp X k = getProp o k := by
  simp [getProp, h]

theorem getVec_congr {X o : Obj} (h : X.props = o.props) (k : String) :
    getVec X k = getVec o k := by
  simp [getVec, getProp, h]

theorem getNum_congr {X o : Obj} (h : X.props = o.props) (k : String) :
    getNum X k = getNum o k := by
  simp [getNum, getProp, h]

theorem getNumD_congr {X o : Obj} (h : X.props = o.props) (k : String) (d : ℚ) :
    getNumD X k d = getNumD o k d := by
  simp [getNumD, getProp, h]

theorem hasKey_congr {X o : Obj} (h : X.props = o.props) (k : String) :
    hasKey X k = hasKey o k := by
  simp [hasKey, getProp, h]

theorem getProp_of_getNum {o : Obj} {k : String} {q : ℚ}
    (h : getNum o k = some q) : getProp o k = some (.num q) := by
  unfold getNum at h
  rcases hg : getProp o k with _ | v
  · rw [hg] at h
    exact absurd h (by simp)
  · rw [hg] at h
    rcases v with q' | v'
    · simp only [Option.some.injEq] at h
      rw [h]
    · exact absurd h (by simp)

@[simp] theorem ueco_resolution_u (sq : Sqrt) (o : Obj) :
    (update_end_cap_orientations sq o).resolution_u = o.resolution_u := by
  unfold update_end_cap_orientations
  split
  · rfl
  · split <;> rfl

@[simp] theorem uch_resolution_u (sq : Sqrt) (o : Obj) :
    (update_cable_handles sq o).resolution_u = o.resolution_u := by
  unfold update_cable_handles
  repeat' split
  all_goals simp [ueco_resolution_u]

@[simp] theorem sagStep_resolution_u (sq : Sqrt) (o : Obj) :
    (sagStep sq o).resolution_u = o.resolution_u := by
  unfold sagStep
  split
  · exact uch_resolution_u sq o
  · rfl

@[simp] theorem capScaleStep_props (sq : Sqrt) (o : Obj) :
    (capScaleStep sq o).props = o.props := by
  unfold capScaleStep
  repeat' split
  all_goals rfl

@[simp] theorem capScaleStep_otype (sq : Sqrt) (o : Obj) :
    (capScaleStep sq o).otype = o.otype := by
  unfold capScaleStep
  repeat' split
  all_goals rfl

@[simp] theorem capScaleStep_splines (sq : Sqrt) (o : Obj) :
    (capScaleStep sq o).splines = o.splines := by
  unfold capScaleStep
  repeat' split
  all_goals rfl

@[simp] theorem capScaleStep_resolution_u (sq : Sqrt) (o : Obj) :
    (capScaleStep sq o).resolution_u = o.resolution_u := by
  unfold capScaleStep
  repeat' split
  all_goals rfl

/-- Record update with the object's own scale is the object itself. -/
theorem obj_eta_scaleV {o : Obj} {v : Vec3} (h : o.scaleV = v) :
    ({ o with scaleV := v } : Obj) = o := by
  rw [← h]

/-- A resolution value already mirrored stays put. -/
theorem resolutionStep_resolution_u_key {o : Obj} {q : ℚ}
    (hq : getNum o "cable_resolution" = some q) :
    (resolutionStep o).resolution_u = pyInt q := by
  unfold resolutionStep
  rw [if_pos (by simp [hasKey, getProp_of_getNum hq])]
  simp only [hq]
  try dsimp only []
  split
  · rfl
  · next h =>
    push_neg at h
    exact h

/-- resolutionStep is a no-op on an object whose properties agree with
    `o` and whose resolution is already the one resolutionStep would
    write for `o`. -/
theorem resolutionStep_fix {X o : Obj} (hp : X.props = o.props)
    (hr : X.resolution_u = (resolutionStep o).resolution_u) :
    resolutionStep X = X := by
  unfold resolutionStep
  by_cases hk : hasKey X "cable_resolution" = true
  · rw [if_pos hk]
    rcases hq : getNum X "cable_resolution" with _ | q
    · rfl
    · simp only [hq]
      try dsimp only []
      have heq : X.resolution_u = pyInt q := by
        rw [hr, resolutionStep_resolution_u_key ((getNum_congr hp _).symm.trans hq)]
      rw [if_neg (not_not_intro heq)]
  · rw [if_neg hk]

theorem capScaleChild_is_end_cap (sq : Sqrt) (b : ℚ) (c : Child) :
    (capScaleChild sq b c).is_end_cap = c.is_end_cap := by
  unfold capScaleChild
  repeat' split
  all_goals try rfl
  all_goals (dsimp only []; split <;> rfl)

theorem capScaleChild_name (sq : Sqrt) (b : ℚ) (c : Child) :
    (capScaleChild sq b c).name = c.name := by
  unfold capScaleChild
  repeat' split
  all_goals try rfl
  all_goals (dsimp only []; split <;> rfl)

theorem capScaleChild_rotation (sq : Sqrt) (b : ℚ) (c : Child) :
    (capScaleChild sq b c).rotation = c.rotation := by
  unfold capScaleChild
  repeat' split
  all_goals try rfl
  all_goals (dsimp only []; split <;> rfl)

/-- The per-child cap-scale overwrite is idempotent as a state change. -/
theorem capScaleChild_idem (sq : Sqrt) (b : ℚ) (c : Child) :
    capScaleChild sq b (capScaleChild sq b c) = capScaleChild sq b c := by
  unfold capScaleChild
  by_cases hc : c.is_end_cap = true
  · rw [if_pos hc]
    by_cases hlt : 0.001 < length sq (c.scaleV - ⟨b, b, b⟩)
    · rw [if_pos hlt]
      rw [if_pos (show ({ c with scaleV := ⟨b, b, b⟩ } : Child).is_end_cap = true from hc)]
      dsimp only []
      split <;> rfl
    · rw [if_neg hlt, if_pos hc, if_neg hlt]
  · rw [if_neg hc, if_neg hc]

/-- Reduction of the cap-scale paragraph when both metadata entries are
    numeric. -/
theorem capScaleStep_eq (sq : Sqrt) (w : Obj) {t m : ℚ}
    (ht : getNum w "cable_thickness" = some t)
    (hm : getNum w "end_cap_scale" = some m) :
    capScaleStep sq w =
      { w with children := w.children.map (capScaleChild sq (t * 20.0 * m)) } := by
  unfold capScaleStep
  rw [if_pos ⟨by simp [hasKey, getProp_of_getNum ht],
    by simp [hasKey, getProp_of_getNum hm]⟩]
  simp only [ht, hm]

/-- The cap-scale paragraph is the identity when a metadata entry is
    missing or non-numeric. -/
theorem capScaleStep_id_of_none {sq : Sqrt} {w : Obj}
    (h : getNum w "cable_thickness" = none ∨ getNum w "end_cap_scale" = none) :
    capScaleStep sq w = w := by
  unfold capScaleStep
  split
  · rcases hx : getNum w "cable_thickness" with _ | t
    · rcases hy : getNum w "end_cap_scale" with _ | m <;> simp only [hx, hy]
    · rcases hy : getNum w "end_cap_scale" with _ | m
      · simp only [hx, hy]
      · rcases h with h | h
        · rw [hx] at h
          exact absurd h (by simp)
        · rw [hy] at h
          exact absurd h (by simp)
  · rfl

/-- The cap-scale paragraph is idempotent. -/
theorem capScaleStep_idem (sq : Sqrt) (w : Obj) :
    capScaleStep sq (capScaleStep sq w) = capScaleStep sq w := by
  rcases ht : getNum w "cable_thickness" with _ | t
  · have hw : capScaleStep sq w = w := capScaleStep_id_of_none (Or.inl ht)
    simp only [hw]
  · rcases hm : getNum w "end_cap_scale" with _ | m
    · have hw : capScaleStep sq w = w := capScaleStep_id_of_none (Or.inr hm)
      simp only [hw]
    · have ht2 : getNum
          { w with children := w.children.map (capScaleChild sq (t * 20.0 * m)) }
          "cable_thickness" = some t := ht
      have hm2 : getNum
          { w with children := w.children.map (capScaleChild sq (t * 20.0 * m)) }
          "end_cap_scale" = some m := hm
      rw [capScaleStep_eq sq w ht hm, capScaleStep_eq sq _ ht2 hm2]
      rw [List.map_map]
      have h2 : (w.children.map (capScaleChild sq (t * 20.0 * m) ∘
          capScaleChild sq (t * 20.0 * m))) =
          w.children.map (capScaleChild sq (t * 20.0 * m)) :=
        List.map_congr_left fun c _ => capScaleChild_idem sq _ c
      rw [h2]

/-- Writing a child's own rotation back is the identity. -/
theorem child_eta_rotation {c : Child} {r : Mat3} (h : c.rotation = r) :
    ({ c with rotation := r } : Child) = c := by
  rw [← h]

/-- update_end_cap_orientations is the identity on an object without
    splines. -/
theorem ueco_id_of_nil {sq : Sqrt} {o : Obj} (h : o.splines = []) :
    update_end_cap_orientations sq o = o := by
  unfold update_end_cap_orientations
  simp only [h]

/-- update_end_cap_orientations is the identity when the first spline has
    fewer than two points. -/
theorem ueco_id_of_short {sq : Sqrt} {o : Obj} {s : Spline} {rest : List Spline}
    (h : o.splines = s :: rest) (hl : s.bezier_points.length < 2) :
    update_end_cap_orientations sq o = o := by
  unfold update_end_cap_orientations
  simp only [h]
  rw [if_pos hl]

/-- Reduction of update_end_cap_orientations in the active case. -/
theorem ueco_eq_of_long {sq : Sqrt} {o : Obj} {s : Spline} {rest : List Spline}
    (h : o.splines = s :: rest) (hl : ¬ s.bezier_points.length < 2) :
    update_end_cap_orientations sq o =
      { o with children := o.children.map (orientChild sq s) } := by
  unfold update_end_cap_orientations
  simp only [h]
  rw [if_neg hl]

/-- orientChild reads only the child's name: on two children with the
    same name it either rewrites both rotations to a common target or
    leaves both children unchanged. -/
theorem orientChild_congr_name (sq : Sqrt) (s : Spline) {c d : Child}
    (h : d.name = c.name) :
    (∃ r : Mat3, orientChild sq s c = { c with rotation := r } ∧
      orientChild sq s d = { d with rotation := r }) ∨
    (orientChild sq s c = c ∧ orientChild sq s d = d) := by
  by_cases h1 : capStartChars.isPrefixOf c.name = true
  · have h1' : capStartChars.isPrefixOf d.name = true := by rw [h]; exact h1
    rcases hbz : s.bezier_points with _ | ⟨p, ps⟩
    · right
      constructor
      · unfold orientChild
        rw [if_pos h1, hbz]
      · unfold orientChild
        rw [if_pos h1', hbz]
    · left
      refine ⟨alignZ sq (normalized sq (p.handle_right - p.co)), ?_, ?_⟩
      · unfold orientChild
        rw [if_pos h1, hbz]
      · unfold orientChild
        rw [if_pos h1', hbz]
  · have h1' : ¬ capStartChars.isPrefixOf d.name = true := by rw [h]; exact h1
    by_cases h2 : capEndChars.isPrefixOf c.name = true
    · have h2' : capEndChars.isPrefixOf d.name = true := by rw [h]; exact h2
      rcases hbz : s.bezier_points with _ | ⟨p, ps⟩
      · right
        constructor
        · unfold orientChild
          rw [if_neg h1, if_pos h2, hbz]
        · unfold orientChild
          rw [if_neg h1', if_pos h2', hbz]
      · rcases ps with _ | ⟨e, ps'⟩
        · right
          constructor
          · unfold orientChild
            rw [if_neg h1, if_pos h2, hbz]
          · unfold orientChild
            rw [if_neg h1', if_pos h2', hbz]
        · left
          refine ⟨alignZ sq (normalized sq (e.co - e.handle_left)), ?_, ?_⟩
          · unfold orientChild
            rw [if_neg h1, if_pos h2, hbz]
          · unfold orientChild
            rw [if_neg h1', if_pos h2', hbz]
    · have h2' : ¬ capEndChars.isPrefixOf d.name = true := by rw [h]; exact h2
      right
      constructor
      · unfold orientChild
        rw [if_neg h1, if_neg h2]
      · unfold orientChild
        rw [if_neg h1', if_neg h2']

/-- Re-orienting an already oriented cap changes nothing. -/
theorem orientChild_idem (sq : Sqrt) (s : Spline) (c : Child) :
    orientChild sq s (orientChild sq s c) = orientChild sq s c := by
  rcases orientChild_congr_name sq s (orientChild_name sq s c) with ⟨r, hc, hd⟩ | ⟨_, hd⟩
  · rw [hd]
    apply child_eta_rotation
    rw [hc]
  · exact hd

/-- The orientation pass fixes a cap that was oriented and then had its
    scale rewritten by the cap-scale pass. -/
theorem orient_capScale_fix (sq : Sqrt) (s : Spline) (b : ℚ) (c : Child) :
    orientChild sq s (capScaleChild sq b (orientChild sq s c)) =
      capScaleChild sq b (orientChild sq s c) := by
  have hn : (capScaleChild sq b (orientChild sq s c)).name = c.name := by
    rw [capScaleChild_name, orientChild_name]
  rcases orientChild_congr_name sq s hn with ⟨r, hc, hd⟩ | ⟨_, hd⟩
  · rw [hd]
    apply child_eta_rotation
    rw [capScaleChild_rotation, hc]
  · exact hd

/-- Writing an object's own children back is the identity. -/
theorem obj_eta_children {o : Obj} {l : List Child} (h : o.children = l) :
    ({ o with children := l } : Obj) = o := by
  rw [← h]

/-- Writing an object's own splines back is the identity. -/
theorem obj_eta_splines {o : Obj} {l : List Spline} (h : o.splines = l) :
    ({ o with splines := l } : Obj) = o := by
  rw [← h]

/-- The orientation pass fixes the output of the orientation pass
    followed by the cap-scale pass. -/
theorem ueco_capScale_fix (sq : Sqrt) (o : Obj) :
    update_end_cap_orientations sq
        (capScaleStep sq (update_end_cap_orientations sq o)) =
      capScaleStep sq (update_end_cap_orientations sq o) := by
  rcases hs : o.splines with _ | ⟨spline, rest⟩
  · rw [ueco_id_of_nil hs]
    have h2 : (capScaleStep sq o).splines = [] := by
      rw [capScaleStep_splines]
      exact hs
    exact ueco_id_of_nil h2
  · by_cases hl : spline.bezier_points.length < 2
    · rw [ueco_id_of_short hs hl]
      have h2 : (capScaleStep sq o).splines = spline :: rest := by
        rw [capScaleStep_splines]
        exact hs
      exact ueco_id_of_short h2 hl
    · rw [ueco_eq_of_long hs hl]
      set W : Obj := { o with children := o.children.map (orientChild sq spline) } with hW
      have hcW : W.children = o.children.map (orientChild sq spline) := by rw [hW]
      have hsW : W.splines = spline :: rest := by
        rw [hW]
        exact hs
      have hself : (o.children.map (orientChild sq spline)).map (orientChild sq spline) =
          o.children.map (orientChild sq spline) := by
        rw [List.map_map]
        exact List.map_congr_left fun c _ => orientChild_idem sq spline c
      rcases ht : getNum W "cable_thickness" with _ | t
      · rw [capScaleStep_id_of_none (Or.inl ht)]
        rw [ueco_eq_of_long hsW hl]
        have hfix : W.children.map (orientChild sq spline) = W.children := by
          rw [hcW]
          exact hself
        rw [hfix]
      · rcases hm : getNum W "end_cap_scale" with _ | m
        · rw [capScaleStep_id_of_none (Or.inr hm)]
          rw [ueco_eq_of_long hsW hl]
          have hfix : W.children.map (orientChild sq spline) = W.children := by
            rw [hcW]
            exact hself
          rw [hfix]
        · rw [capScaleStep_eq sq W ht hm]
          set Y : Obj :=
            { W with children := W.children.map (capScaleChild sq (t * 20.0 * m)) } with hYd
          have hsY : Y.splines = spline :: rest := by
            rw [hYd]
            exact hsW
          rw [ueco_eq_of_long hsY hl]
          have hcY : Y.children =
              (o.children.map (orientChild sq spline)).map
                (capScaleChild sq (t * 20.0 * m)) := by
            rw [hYd, hcW]
          have hfix : Y.children.map (orientChild sq spline) = Y.children := by
            rw [hcY, List.map_map, List.map_map, List.map_map]
            exact List.map_congr_left fun c _ => orient_capScale_fix sq spline _ c
          rw [hfix]

/-- The guard pattern of update_cable_handles: all four vector keys
    present and the first spline carries at least two points.  Exactly in
    this situation the source rewrites the handles; otherwise it returns
    the object unchanged. -/
def uchActive (o : Obj) : Prop :=
  ∃ (sp ep sn en : Vec3) (spline : Spline) (rest : List Spline)
    (p0 p1 : BezPoint) (tl : List BezPoint),
    getVec o "start_pos" = some sp ∧ o.splines = spline :: rest ∧
    spline.bezier_points = p0 :: p1 :: tl ∧
    getVec o "end_pos" = some ep ∧ getVec o "start_normal" = some sn ∧
    getVec o "end_normal" = some en

/-- Outside the active pattern update_cable_handles is the identity. -/
theorem uch_eq_self_of_not_active {sq : Sqrt} {o : Obj} (h : ¬ uchActive o) :
    update_cable_handles sq o = o := by
  unfold update_cable_handles
  repeat' split
  all_goals try rfl
  all_goals
    exfalso
    apply h
    exact ⟨_, _, _, _, _, _, _, _, _, by assumption, by assumption, by assumption,
      by assumption, by assumption, by assumption⟩

/-- The active pattern depends only on the properties and the splines. -/
theorem uchActive_congr {X o : Obj} (hp : X.props = o.props)
    (hs : X.splines = o.splines) : uchActive X ↔ uchActive o := by
  unfold uchActive
  simp only [getVec_congr hp, hs]

/-- The start point as update_cable_handles rewrites it (the let-block of
    the source specialized to the first bezier point). -/
def uchP0 (sq : Sqrt) (sp ep sn : Vec3) (sag : ℚ) (p0 : BezPoint) : BezPoint :=
  let start_normal := fixNormal sq sn
  let distance := length sq (ep - sp)
  let handle_length := distance * 0.4
  let direction := normalized sq (ep - sp)
  let start_alignment := Vec3.dot start_normal direction
  let start_handle_dir := if start_alignment < -0.3 then -start_normal else start_normal
  let sag_vector := (distance * sag) • (⟨0, 0, -1⟩ : Vec3)
  { p0 with
    handle_left := sp - (handle_length * 0.3) • start_handle_dir,
    handle_right := sp + handle_length • start_handle_dir + (0.5 : ℚ) • sag_vector }

/-- The end point as update_cable_handles rewrites it. -/
def uchP1 (sq : Sqrt) (sp ep en : Vec3) (sag : ℚ) (p1 : BezPoint) : BezPoint :=
  let end_normal := fixNormal sq en
  let distance := length sq (ep - sp)
  let handle_length := distance * 0.4
  let direction := normalized sq (ep - sp)
  let end_alignment := Vec3.dot end_normal (-direction)
  let end_handle_dir := if end_alignment < -0.3 then -end_normal else end_normal
  let sag_vector := (distance * sag) • (⟨0, 0, -1⟩ : Vec3)
  { p1 with
    handle_left := ep + handle_length • end_handle_dir + (0.5 : ℚ) • sag_vector,
    handle_right := ep - (handle_length * 0.3) • end_handle_dir }

/-- Rewriting the handles of a point whose handles were already rewritten
    from the same data writes the same values. -/
theorem uchP0_idem (sq : Sqrt) (sp ep sn : Vec3) (sag : ℚ) (p0 : BezPoint) :
    uchP0 sq sp ep sn sag (uchP0 sq sp ep sn sag p0) = uchP0 sq sp ep sn sag p0 := by
  simp only [uchP0]

/-- Companion of uchP0_idem for the end point. -/
theorem uchP1_idem (sq : Sqrt) (sp ep en : Vec3) (sag : ℚ) (p1 : BezPoint) :
    uchP1 sq sp ep en sag (uchP1 sq sp ep en sag p1) = uchP1 sq sp ep en sag p1 := by
  simp only [uchP1]

/-- Reduction of update_cable_handles in the active case: the first two
    bezier points are rewritten by uchP0/uchP1 and the orientation pass
    runs on the result. -/
theorem uch_run (sq : Sqrt) (o : Obj) (sp ep sn en : Vec3) (spline : Spline)
    (rest : List Spline) (p0 p1 : BezPoint) (tl : List BezPoint)
    (h1 : getVec o "start_pos" = some sp) (h2 : o.splines = spline :: rest)
    (h3 : spline.bezier_points = p0 :: p1 :: tl)
    (h4 : getVec o "end_pos" = some ep) (h5 : getVec o "start_normal" = some sn)
    (h6 : getVec o "end_normal" = some en) :
    update_cable_handles sq o =
      update_end_cap_orientations sq
        { o with
            splines :=
              { spline with
                  bezier_points :=
                    uchP0 sq sp ep sn (getNumD o "cable_sag" 0) p0 ::
                      uchP1 sq sp ep en (getNumD o "cable_sag" 0) p1 :: tl } :: rest } := by
  unfold update_cable_handles uchP0 uchP1
  simp only [h1, h2, h3, h4, h5, h6]

/-- The handle pass fixes the output of the handle pass followed by the
    cap-scale pass: a second recomputation reads the same metadata,
    writes the same handle values and re-orients the already oriented
    caps. -/
theorem uch_capScale_fix (sq : Sqrt) (o : Obj) :
    update_cable_handles sq (capScaleStep sq (update_cable_handles sq o)) =
      capScaleStep sq (update_cable_handles sq o) := by
  by_cases hact : uchActive o
  · obtain ⟨sp, ep, sn, en, spline, rest, p0, p1, tl, h1, h2, h3, h4, h5, h6⟩ := hact
    rw [uch_run sq o sp ep sn en spline rest p0 p1 tl h1 h2 h3 h4 h5 h6]
    set q0 : BezPoint := uchP0 sq sp ep sn (getNumD o "cable_sag" 0) p0 with hq0
    set q1 : BezPoint := uchP1 sq sp ep en (getNumD o "cable_sag" 0) p1 with hq1
    set spl2 : Spline := { spline with bezier_points := q0 :: q1 :: tl } with hspl2
    set Z : Obj := { o with splines := spl2 :: rest } with hZ
    set Y : Obj := capScaleStep sq (update_end_cap_orientations sq Z) with hY
    have hpZ : Z.props = o.props := by rw [hZ]
    have hpY : Y.props = o.props := by
      rw [hY, capScaleStep_props, ueco_props, hpZ]
    have hsY : Y.splines = spl2 :: rest := by
      rw [hY, capScaleStep_splines, ueco_splines, hZ]
    have h1' : getVec Y "start_pos" = some sp := by
      rw [getVec_congr hpY]
      exact h1
    have h4' : getVec Y "end_pos" = some ep := by
      rw [getVec_congr hpY]
      exact h4
    have h5' : getVec Y "start_normal" = some sn := by
      rw [getVec_congr hpY]
      exact h5
    have h6' : getVec Y "end_normal" = some en := by
      rw [getVec_congr hpY]
      exact h6
    have h3' : spl2.bezier_points = q0 :: q1 :: tl := by rw [hspl2]
    have hrun2 := uch_run sq Y sp ep sn en spl2 rest q0 q1 tl h1' hsY h3' h4' h5' h6'
    rw [getNumD_congr hpY "cable_sag" 0] at hrun2
    rw [hq0, hq1] at hrun2
    rw [uchP0_idem, uchP1_idem] at hrun2
    rw [← hq0, ← hq1] at hrun2
    rw [show ({ spl2 with bezier_points := q0 :: q1 :: tl } : Spline) = spl2 from
      by rw [← h3']] at hrun2
    rw [obj_eta_splines hsY] at hrun2
    rw [hrun2, hY]
    exact ueco_capScale_fix sq Z
  · rw [uch_eq_self_of_not_active hact]
    have hX : ¬ uchActive (capScaleStep sq o) := fun hc =>
      hact ((uchActive_congr (capScaleStep_props sq o) (capScaleStep_splines sq o)).mp hc)
    exact uch_eq_self_of_not_active hX

/-- Idempotence of the handler's per-object body on the is_cable curve
    branch: resolution, handles and cap scales are all rewritten to the
    values they already hold. -/
theorem handleObj_curve_idem (sq : Sqrt) (obj : Obj) (hty : obj.otype = .curve)
    (hic : hasKey obj "is_cable" = true) :
    handleObj sq (handleObj sq obj) = handleObj sq obj := by
  set X : Obj := capScaleStep sq (sagStep sq (resolutionStep obj)) with hX
  have h1 : handleObj sq obj = X := handleObj_curve hty hic
  have hpX : X.props = obj.props := by
    rw [hX, capScaleStep_props, sagStep_props, resolutionStep_props]
  have htyX : X.otype = .curve := by
    rw [hX, capScaleStep_otype, sagStep_otype, resolutionStep_otype]
    exact hty
  have hicX : hasKey X "is_cable" = true := by
    rw [hasKey_congr hpX]
    exact hic
  rw [h1, handleObj_curve htyX hicX]
  have hres : resolutionStep X = X := by
    apply resolutionStep_fix hpX
    rw [hX, capScaleStep_resolution_u, sagStep_resolution_u]
  rw [hres]
  by_cases hsag : hasKey obj "cable_sag" = true
  · have hsagX : hasKey X "cable_sag" = true := by
      rw [hasKey_congr hpX]
      exact hsag
    have hsagR : hasKey (resolutionStep obj) "cable_sag" = true := by
      rw [hasKey_congr (resolutionStep_props obj)]
      exact hsag
    have h2 : sagStep sq X = update_cable_handles sq X := by
      unfold sagStep
      rw [if_pos hsagX]
    have h3 : sagStep sq (resolutionStep obj) =
        update_cable_handles sq (resolutionStep obj) := by
      unfold sagStep
      rw [if_pos hsagR]
    rw [h2, hX, h3, uch_capScale_fix sq (resolutionStep obj)]
    exact capScaleStep_idem sq _
  · have hsagX : ¬ hasKey X "cable_sag" = true := by
      rw [hasKey_congr hpX]
      exact hsag
    have hsagR : ¬ hasKey (resolutionStep obj) "cable_sag" = true := by
      rw [hasKey_congr (resolutionStep_props obj)]
      exact hsag
    have h2 : sagStep sq X = X := by
      unfold sagStep
      rw [if_neg hsagX]
    have h3 : sagStep sq (resolutionStep obj) = resolutionStep obj := by
      unfold sagStep
      rw [if_neg hsagR]
    rw [h2, hX, h3]
    exact capScaleStep_idem sq _

@[simp] theorem arrayScaleStep_otype (sq : Sqrt) (o : Obj) :
    (arrayScaleStep sq o).otype = o.otype := by
  unfold arrayScaleStep
  repeat' split
  all_goals try rfl
  all_goals (dsimp only []; split <;> rfl)

@[simp] theorem arrayModStep_otype (o : Obj) : (arrayModStep o).otype = o.otype := rfl

/-- The array-scale overwrite is a no-op on an object whose properties
    agree with `o` and whose scale is already the one the overwrite left
    on `o`. -/
theorem arrayScaleStep_fix {sq : Sqrt} {X o : Obj} (hp : X.props = o.props)
    (hsv : X.scaleV = (arrayScaleStep sq o).scaleV) :
    arrayScaleStep sq X = X := by
  unfold arrayScaleStep
  by_cases hk : hasKey X "array_scale" = true
  · rw [if_pos hk]
    rcases hq : getNum X "array_scale" with _ | s
    · rfl
    · simp only [hq]
      try dsimp only []
      have hqo : getNum o "array_scale" = some s := by
        rw [← getNum_congr hp]
        exact hq
      have hko : hasKey o "array_scale" = true := by
        rw [← hasKey_congr hp]
        exact hk
      have hcase : ((arrayScaleStep sq o).scaleV = o.scaleV ∧
          ¬ 0.001 < length sq (o.scaleV - ⟨s, s, s⟩)) ∨
          (arrayScaleStep sq o).scaleV = ⟨s, s, s⟩ := by
        unfold arrayScaleStep
        rw [if_pos hko]
        simp only [hqo]
        try dsimp only []
        split
        · right
          rfl
        · next h =>
          left
          exact ⟨rfl, h⟩
      split
      · next h =>
        rcases hcase with ⟨he, hno⟩ | he
        · rw [hsv, he] at h
          exact absurd h hno
        · exact obj_eta_scaleV (hsv.trans he)
      · rfl
  · rw [if_neg hk]

/-- updateArrayMod reads only the object's properties. -/
theorem updateArrayMod_congr {X o : Obj} (hp : X.props = o.props) (m : Modifier) :
    updateArrayMod X m = updateArrayMod o m := by
  unfold updateArrayMod
  rw [hasKey_congr hp "array_fit_curve", getNum_congr hp "array_fit_curve",
    hasKey_congr hp "array_count", getNum_congr hp "array_count"]

/-- updateArrayMod never changes a modifier's type. -/
theorem updateArrayMod_mtype (o : Obj) (m : Modifier) :
    (updateArrayMod o m).mtype = m.mtype := by
  unfold updateArrayMod
  repeat' split
  all_goals try rfl
  all_goals (dsimp only []; repeat' split)
  all_goals rfl

/-- The single-modifier update is idempotent: the branch taken depends
    only on the object and each branch writes constant field values. -/
theorem updateArrayMod_idem (o : Obj) (m : Modifier) :
    updateArrayMod o (updateArrayMod o m) = updateArrayMod o m := by
  unfold updateArrayMod
  by_cases hk : hasKey o "array_fit_curve" = true
  · rw [if_pos hk, if_pos hk]
    rcases hq : getNum o "array_fit_curve" with _ | q
    · simp only [hq]
    · simp only [hq]
      try dsimp only []
      by_cases hz : pyInt q ≠ 0
      · rw [if_pos hz, if_pos hz]
      · rw [if_neg hz, if_neg hz]
        by_cases hk2 : hasKey o "array_count" = true
        · rw [if_pos hk2, if_pos hk2]
          rcases hq2 : getNum o "array_count" with _ | qc
          · simp only [hq2]
          · simp only [hq2]
        · rw [if_neg hk2, if_neg hk2]
  · rw [if_neg hk, if_neg hk]

/-- The modifier loop reads only the object's properties. -/
theorem updateArrayMods_congr {X o : Obj} (hp : X.props = o.props)
    (l : List Modifier) : updateArrayMods X l = updateArrayMods o l := by
  induction l with
  | nil => rfl
  | cons m ms ih =>
    unfold updateArrayMods
    rw [updateArrayMod_congr hp m, ih]

/-- The modifier loop is idempotent: the second pass finds the same first
    ARRAY modifier and rewrites it with the same settings. -/
theorem updateArrayMods_idem (o : Obj) (l : List Modifier) :
    updateArrayMods o (updateArrayMods o l) = updateArrayMods o l := by
  induction l with
  | nil => rfl
  | cons m ms ih =>
    by_cases hA : m.mtype = .ARRAY
    · have h1 : updateArrayMods o (m :: ms) = updateArrayMod o m :: ms := by
        unfold updateArrayMods
        rw [if_pos hA]
      have h2 : updateArrayMods o (updateArrayMod o m :: ms) =
          updateArrayMod o (updateArrayMod o m) :: ms := by
        unfold updateArrayMods
        rw [if_pos (by rw [updateArrayMod_mtype]; exact hA)]
      rw [h1, h2, updateArrayMod_idem]
    · have h1 : updateArrayMods o (m :: ms) = m :: updateArrayMods o ms := by
        simp only [updateArrayMods]
        rw [if_neg hA]
      have h2 : updateArrayMods o (m :: updateArrayMods o ms) =
          m :: updateArrayMods o (updateArrayMods o ms) := by
        simp only [updateArrayMods]
        rw [if_neg hA]
      rw [h1, h2, ih]

/-- Idempotence of the handler's per-object body on the has_array mesh
    branch. -/
theorem handleObj_mesh_idem (sq : Sqrt) (obj : Obj) (hty : obj.otype = .mesh)
    (hha : hasKey obj "has_array" = true) :
    handleObj sq (handleObj sq obj) = handleObj sq obj := by
  set M : Obj := arrayModStep (arrayScaleStep sq obj) with hM
  have h1 : handleObj sq obj = M := handleObj_mesh hty hha
  have hpM : M.props = obj.props := by
    rw [hM, arrayModStep_props, arrayScaleStep_props]
  have htyM : M.otype = .mesh := by
    rw [hM, arrayModStep_otype, arrayScaleStep_otype]
    exact hty
  have hhaM : hasKey M "has_array" = true := by
    rw [hasKey_congr hpM]
    exact hha
  rw [h1, handleObj_mesh htyM hhaM]
  have hfix : arrayScaleStep sq M = M := by
    apply arrayScaleStep_fix hpM
    rw [hM, arrayModStep_scaleV]
  rw [hfix]
  unfold arrayModStep
  have hpMA : M.props = (arrayScaleStep sq obj).props := by
    rw [hpM, arrayScaleStep_props]
  have hmods : updateArrayMods M M.modifiers = M.modifiers := by
    have hMm : M.modifiers =
        updateArrayMods (arrayScaleStep sq obj) (arrayScaleStep sq obj).modifiers := by
      rw [hM, arrayModStep_modifiers]
    rw [hMm, updateArrayMods_congr hpMA, updateArrayMods_idem]
  rw [hmods]

/-- Outside the curve and mesh branches the handler body is the
    identity. -/
theorem handleObj_other {sq : Sqrt} {obj : Obj}
    (h1 : ¬ (obj.otype = .curve ∧ hasKey obj "is_cable" = true))
    (h2 : ¬ (obj.otype = .mesh ∧ hasKey obj "has_array" = true)) :
    handleObj sq obj = obj := by
  unfold handleObj
  rw [if_neg (by simpa using h1), if_neg (by simpa using h2)]

/-- The per-object body of the scene-update handler is idempotent. -/
theorem handleObj_idem (sq : Sqrt) (obj : Obj) :
    handleObj sq (handleObj sq obj) = handleObj sq obj := by
  by_cases hc : obj.otype = .curve ∧ hasKey obj "is_cable" = true
  · exact handleObj_curve_idem sq obj hc.1 hc.2
  · by_cases hm : obj.otype = .mesh ∧ hasKey obj "has_array" = true
    · exact handleObj_mesh_idem sq obj hm.1 hm.2
    · rw [handleObj_other hc hm, handleObj_other hc hm]

/-- C10: the scene-update handler is idempotent — running
    cable_update_handler twice in immediate succession on any scene
    yields the same state as running it once.  Per object: the mirrored
    curve resolution, the recomputed bezier handle positions, the end-cap
    scales and orientations, the object scale and the first array
    modifier's fit type and count are all fixed points of a second run,
    because each written value is computed only from stored metadata the
    handler never modifies. -/
theorem C10_handler_idempotent (sq : Sqrt) (scene : List Obj) :
    cable_update_handler sq (cable_update_handler sq scene) =
      cable_update_handler sq scene := by
  unfold cable_update_handler
  rw [List.map_map]
  exact List.map_congr_left fun o _ => handleObj_idem sq o

end CableGen
